import Mathlib

/-!
Shallow embedding of the planning core of the AI_EMERGENCY_RESPONSE repository
(module3_planning: `planning_domain.py`, `graphplan.py`, `pop_planner.py`, and
the scenario snapshot from `common/scenario.py`), together with proofs about it.

Modelling conventions:
* Python `set` objects are modelled as `List String` with membership semantics;
  wherever the Python code iterates over a set, the list order is the insertion
  order of the corresponding `add` calls in the source.  Where a claim is about
  iteration-order (in)dependence, the extraction function additionally takes an
  explicit enumeration function (`iter`) applied to the working goal set, so any
  set-iteration order of CPython is an instance.
* Python functions that raise `ValueError` are modelled with `Except String`,
  carrying the message text of the source.
* Entity records keep exactly the fields that the planning module reads
  (identifiers, nodes, CT status, availability); fields that the planning core
  never touches (datetimes, float distances, the road graph) are omitted.
-/

set_option autoImplicit false

namespace EmergencyPlanning

abbrev Proposition := String

/-- `planning_domain.Action`: a ground STRIPS action. -/
structure Action where
  name : String
  preconditions : List Proposition
  add_effects : List Proposition
  del_effects : List Proposition
deriving DecidableEq, Repr

/-- `graphplan.PlanGraph`. -/
structure PlanGraph where
  proposition_layers : List (List Proposition)
  action_layers : List (List Action)
deriving DecidableEq, Repr

/-- `xs.issubset(ys)` on Python sets. -/
def subsetB (xs ys : List Proposition) : Bool :=
  xs.all (fun x => ys.contains x)

/-- `xs | ys` on Python sets (members of `xs` then the new members of `ys`). -/
def unionList (xs ys : List Proposition) : List Proposition :=
  xs ++ ys.filter (fun y => !(xs.contains y))

/-- Step 1 of a `build_plan_graph` level: the applicable actions at a layer. -/
def applicableActions (actions : List Action) (props : List Proposition) : List Action :=
  actions.filter (fun a => subsetB a.preconditions props)

/-- Step 2 of a `build_plan_graph` level: `next_props = current | all add_effects`. -/
def addAllEffects (props : List Proposition) (acts : List Action) : List Proposition :=
  acts.foldl (fun acc a => unionList acc a.add_effects) props

def planNotFoundMsg : String :=
  "Goals not reachable within max_levels in planning graph."

/-- The `for level in range(max_levels)` loop of `build_plan_graph`; `fuel` is
the number of levels still allowed, `level` the number already expanded. -/
def build_plan_graph_aux (actions : List Action) (goals : List Proposition) :
    Nat → List Proposition → List (List Proposition) → List (List Action) → Nat →
    Except String (PlanGraph × Nat)
  | 0, _, _, _, _ => .error planNotFoundMsg
  | fuel + 1, current, propAcc, actAcc, level =>
    let applicable := applicableActions actions current
    let nextProps := addAllEffects current applicable
    if subsetB goals nextProps then
      .ok (⟨propAcc ++ [nextProps], actAcc ++ [applicable]⟩, level + 1)
    else
      build_plan_graph_aux actions goals fuel nextProps
        (propAcc ++ [nextProps]) (actAcc ++ [applicable]) (level + 1)

/-- `graphplan.build_plan_graph`. -/
def build_plan_graph (initial_state : List Proposition) (actions : List Action)
    (goals : List Proposition) (max_levels : Nat) : Except String (PlanGraph × Nat) :=
  build_plan_graph_aux actions goals max_levels initial_state [initial_state] [] 0

/-- The proposition layer `P i` that `build_plan_graph` computes at level `i`. -/
def layerP (initS : List Proposition) (actions : List Action) : Nat → List Proposition
  | 0 => initS
  | j + 1 =>
    addAllEffects (layerP initS actions j)
      (applicableActions actions (layerP initS actions j))

/-- The action layer `A i` that `build_plan_graph` computes at level `i`. -/
def layerA (initS : List Proposition) (actions : List Action) (j : Nat) : List Action :=
  applicableActions actions (layerP initS actions j)

/-- One goal of the inner `for g in current_goals` loop of `extract_linear_plan`:
`none` when the goal is already true at the previous layer or no supporting
action exists (the silent-drop case), `some a` for the first supporter. -/
def supporterFor (propsPrev : List Proposition) (actsPrev : List Action)
    (g : Proposition) : Option Action :=
  if propsPrev.contains g then none
  else actsPrev.find? (fun a => a.add_effects.contains g)

/-- One level of `extract_linear_plan`: the appended supporters (in goal-list
order) and the accumulated `new_subgoals`. -/
def extractLevel (propsPrev : List Proposition) (actsPrev : List Action)
    (goalList : List Proposition) : List Action × List Proposition :=
  let block := goalList.filterMap (supporterFor propsPrev actsPrev)
  (block, block.foldl (fun acc a => unionList acc a.preconditions) [])

/-- The `for level in range(goal_layer_index, 0, -1)` loop of
`extract_linear_plan`.  `iter` models the iteration order CPython uses for the
set `current_goals`: it is applied to the working goal list before each level
and is expected to enumerate the same members (e.g. `id`, `List.reverse`). -/
def extractLoopIter (pLayers : List (List Proposition)) (aLayers : List (List Action))
    (iter : List Proposition → List Proposition) :
    Nat → List Action × List Proposition → List Action × List Proposition
  | 0, st => st
  | l + 1, (chosen, goals) =>
    let res := extractLevel (pLayers.getD l []) (aLayers.getD l []) (iter goals)
    extractLoopIter pLayers aLayers iter l (chosen ++ res.1, unionList goals res.2)

/-- The final dedup pass of `extract_linear_plan` (`if a.name not in seen`). -/
def dedupByName : List Action → List String → List Action
  | [], _ => []
  | a :: rest, seen =>
    if seen.contains a.name then dedupByName rest seen
    else a :: dedupByName rest (a.name :: seen)

/-- `graphplan.extract_linear_plan`, parameterised by the set-iteration order. -/
def extract_linear_plan_iter (iter : List Proposition → List Proposition)
    (plan_graph : PlanGraph) (goal_layer_index : Nat) (goals : List Proposition) :
    List Action :=
  let res := extractLoopIter plan_graph.proposition_layers plan_graph.action_layers
    iter goal_layer_index ([], goals)
  dedupByName res.1.reverse []

/-- `graphplan.extract_linear_plan` with insertion-order iteration. -/
def extract_linear_plan (plan_graph : PlanGraph) (goal_layer_index : Nat)
    (goals : List Proposition) : List Action :=
  extract_linear_plan_iter (fun l => l) plan_graph goal_layer_index goals

/-! ## Entities and the scenario snapshot (`common/entities.py`, `common/scenario.py`)

Only the fields read by the planning module are retained; datetimes, float
distances and the road graph are never touched by the planning core and are
omitted from the embedding. -/

inductive HospitalCTStatus where
  | AVAILABLE
  | OFFLINE
deriving DecidableEq, Repr

structure Hospital where
  id : String
  name : String
  node : String
  is_trauma_center : Bool
  ct_status : HospitalCTStatus
  capacity_beds : Nat
  current_load : Nat
deriving DecidableEq, Repr

structure Ambulance where
  id : String
  current_node : String
  is_available : Bool
deriving DecidableEq, Repr

structure Accident where
  id : String
  location_node : String
  description : String
deriving DecidableEq, Repr

structure Scenario where
  hospitals : List Hospital
  ambulances : List Ambulance
  accidents : List Accident
deriving DecidableEq, Repr

/-- `common/scenario.create_base_scenario`, restricted to the collections the
planning module reads. -/
def create_base_scenario : Scenario :=
  { hospitals :=
      [ { id := "H1", name := "H1 Trauma Hospital", node := "hospital_h1"
          is_trauma_center := true, ct_status := HospitalCTStatus.AVAILABLE
          capacity_beds := 40, current_load := 30 }
      , { id := "H2", name := "H2 General Hospital", node := "hospital_h2"
          is_trauma_center := false, ct_status := HospitalCTStatus.OFFLINE
          capacity_beds := 30, current_load := 20 } ]
    ambulances :=
      [ { id := "A1", current_node := "hospital_h1", is_available := true }
      , { id := "A2", current_node := "hospital_h2", is_available := true } ]
    accidents :=
      [ { id := "ACC1", location_node := "jaydev_vihar_flyover"
          description := "High-speed bike collision near Jaydev Vihar flyover" }
      , { id := "ACC2", location_node := "rupali_square"
          description := "Car-auto crash at Rupali Square" }
      , { id := "ACC3", location_node := "airport_approach"
          description := "SUV rollover near Airport approach road with airbags deployed" } ] }

/-! ## Domain builder (`planning_domain.py`) -/

def notFoundMsg (obj_id : String) : String :=
  "Object with id " ++ obj_id ++ " not found"

/-- `planning_domain._find_by_id`: linear scan for the first object whose `id`
equals `obj_id`, raising `ValueError` (modelled as `Except.error`) otherwise. -/
def find_by_id {α : Type} (idOf : α → String) (objects : List α) (obj_id : String) :
    Except String α :=
  match objects.find? (fun o => idOf o == obj_id) with
  | some o => .ok o
  | none => .error (notFoundMsg obj_id)

/-- The pure tail of `build_domain_for_acc3`, after the four lookups succeeded:
initial state, ground actions and goal set, in source order. -/
def domainParts (h1 h2 : Hospital) (a1 : Ambulance) (acc3 : Accident) :
    List Proposition × List Action × List Proposition :=
  let initial_state : List Proposition :=
    [ "AmbulanceFree(" ++ a1.id ++ ")"
    , "AmbulanceAt(" ++ a1.id ++ ", " ++ a1.current_node ++ ")"
    , "AccidentReported(" ++ acc3.id ++ ")"
    , "AccidentHighRisk(" ++ acc3.id ++ ")"
    , "AccidentNotServed(" ++ acc3.id ++ ")"
    , "Hospital(" ++ h1.id ++ ")"
    , "Hospital(" ++ h2.id ++ ")"
    , "TraumaCenter(" ++ h1.id ++ ")"
    , "CTAvailable(" ++ h1.id ++ ")"
    , if h2.ct_status = HospitalCTStatus.OFFLINE then "CTOffline(" ++ h2.id ++ ")"
      else "CTAvailable(" ++ h2.id ++ ")"
    , "RainyConditions"
    , "StadiumTrafficLikely"
    , "ControlRoomOperational" ]
  let hotspot_node := "nayapalli_chowk"
  let actions : List Action :=
    [ { name := "TriggerDroneRecon(" ++ acc3.id ++ ")"
        preconditions :=
          [ "ControlRoomOperational", "AccidentReported(" ++ acc3.id ++ ")" ]
        add_effects :=
          [ "DroneReconDone(" ++ acc3.id ++ ")"
          , "AccidentLocationConfirmed(" ++ acc3.id ++ ")" ]
        del_effects := [] }
    , { name := "RequestTrafficDiversion(stadium_corridor)"
        preconditions := [ "ControlRoomOperational", "StadiumTrafficLikely" ]
        add_effects := [ "TrafficDiverted(stadium_corridor)" ]
        del_effects := [] }
    , { name := "PreDeployAmbulanceNearHotspot(" ++ a1.id ++ ", " ++ hotspot_node ++ ")"
        preconditions :=
          [ "AmbulanceFree(" ++ a1.id ++ ")"
          , "AmbulanceAt(" ++ a1.id ++ ", " ++ a1.current_node ++ ")" ]
        add_effects :=
          [ "AmbulanceAt(" ++ a1.id ++ ", " ++ hotspot_node ++ ")"
          , "AmbulancePredeployed(" ++ a1.id ++ ")" ]
        del_effects := [ "AmbulanceAt(" ++ a1.id ++ ", " ++ a1.current_node ++ ")" ] }
    , { name := "NotifyHospital(" ++ h1.id ++ ")"
        preconditions :=
          [ "ControlRoomOperational"
          , "AccidentHighRisk(" ++ acc3.id ++ ")"
          , "Hospital(" ++ h1.id ++ ")" ]
        add_effects := [ "HospitalNotified(" ++ h1.id ++ ")" ]
        del_effects := [] }
    , { name := "StartTransportToAccident(" ++ a1.id ++ ", " ++ acc3.id ++ ")"
        preconditions :=
          [ "AmbulanceFree(" ++ a1.id ++ ")"
          , "AmbulanceAt(" ++ a1.id ++ ", " ++ hotspot_node ++ ")"
          , "AccidentLocationConfirmed(" ++ acc3.id ++ ")"
          , "TrafficDiverted(stadium_corridor)" ]
        add_effects :=
          [ "AmbulanceEnRoute(" ++ a1.id ++ ", " ++ acc3.id ++ ")"
          , "AmbulanceBusy(" ++ a1.id ++ ")" ]
        del_effects := [ "AmbulanceFree(" ++ a1.id ++ ")" ] }
    , { name := "DeliverPatientToH1(" ++ a1.id ++ ", " ++ acc3.id ++ ", " ++ h1.id ++ ")"
        preconditions :=
          [ "AmbulanceEnRoute(" ++ a1.id ++ ", " ++ acc3.id ++ ")"
          , "HospitalNotified(" ++ h1.id ++ ")" ]
        add_effects :=
          [ "PatientAt(" ++ acc3.id ++ ", " ++ h1.id ++ ")"
          , "AccidentServed(" ++ acc3.id ++ ")"
          , "AmbulanceFree(" ++ a1.id ++ ")"
          , "AmbulanceAt(" ++ a1.id ++ ", " ++ h1.node ++ ")" ]
        del_effects :=
          [ "AccidentNotServed(" ++ acc3.id ++ ")"
          , "AmbulanceEnRoute(" ++ a1.id ++ ", " ++ acc3.id ++ ")"
          , "AmbulanceBusy(" ++ a1.id ++ ")" ] }
    , { name := "RerouteMidJourneyToH2(" ++ a1.id ++ ", " ++ acc3.id ++ ", " ++ h2.id ++ ")"
        preconditions :=
          [ "AmbulanceEnRoute(" ++ a1.id ++ ", " ++ acc3.id ++ ")"
          , "CTAvailable(" ++ h2.id ++ ")" ]
        add_effects :=
          [ "PatientAt(" ++ acc3.id ++ ", " ++ h2.id ++ ")"
          , "AccidentServed(" ++ acc3.id ++ ")"
          , "AmbulanceFree(" ++ a1.id ++ ")" ]
        del_effects :=
          [ "AccidentNotServed(" ++ acc3.id ++ ")"
          , "AmbulanceEnRoute(" ++ a1.id ++ ", " ++ acc3.id ++ ")"
          , "AmbulanceBusy(" ++ a1.id ++ ")" ] } ]
  let goal_state : List Proposition :=
    [ "AccidentServed(" ++ acc3.id ++ ")"
    , "PatientAt(" ++ acc3.id ++ ", " ++ h1.id ++ ")" ]
  (initial_state, actions, goal_state)

/-- `planning_domain.build_domain_for_acc3` with the object collections made
explicit (the source reads them off `create_base_scenario()`): the four lookups
run first, in source order, and any failure aborts before any proposition or
action is constructed. -/
def build_domain_core (hospitals : List Hospital) (ambulances : List Ambulance)
    (accidents : List Accident) :
    Except String (List Proposition × List Action × List Proposition) := do
  let h1 ← find_by_id Hospital.id hospitals "H1"
  let h2 ← find_by_id Hospital.id hospitals "H2"
  let a1 ← find_by_id Ambulance.id ambulances "A1"
  let acc3 ← find_by_id Accident.id accidents "ACC3"
  return domainParts h1 h2 a1 acc3

/-- `planning_domain.build_domain_for_acc3`. -/
def build_domain_for_acc3 :
    Except String (List Proposition × List Action × List Proposition) :=
  let scenario := create_base_scenario
  build_domain_core scenario.hospitals scenario.ambulances scenario.accidents

/-- `graphplan.compute_strict_plan_for_acc3`. -/
def compute_strict_plan_for_acc3 : Except String (List Action) := do
  let (initial_state, actions, goals) ← build_domain_for_acc3
  let (pg, goal_layer_index) ← build_plan_graph initial_state actions goals 8
  return extract_linear_plan pg goal_layer_index goals

/-! ## Partial-order planner (`pop_planner.py`) -/

/-- `pop_planner.POPAction`. -/
structure POPAction where
  id : String
  name : String
  preconditions : List Proposition
  effects : List Proposition
deriving DecidableEq, Repr

structure Branch where
  condition : String
  actions : List String
  description : String
deriving DecidableEq, Repr

/-- `pop_planner.POPPlan`; `actions` is the insertion-ordered dict. -/
structure POPPlan where
  actions : List (String × POPAction)
  orderings : List (String × String)
  causal_links : List (String × Proposition × String)
  branches : List Branch
deriving DecidableEq, Repr

/-- The Python substring test `needle in hay`, on character lists. -/
def charsContainsSub (needle : List Char) : List Char → Bool
  | [] => needle.isEmpty
  | c :: rest => needle.isPrefixOf (c :: rest) || charsContainsSub needle rest

def strContainsSub (needle hay : String) : Bool :=
  charsContainsSub needle.toList hay.toList

/-- The Python test `s.startswith(pfx)`, on character lists. -/
def strStartsWith (pfx s : String) : Bool :=
  pfx.toList.isPrefixOf s.toList

/-- The `find_da` helper of `build_pop_plan_for_acc3` (`name.startswith(prefix)`). -/
def find_da (domain_actions : List Action) (pfx : String) : Except String Action :=
  match domain_actions.find? (fun da => strStartsWith pfx da.name) with
  | some da => .ok da
  | none => .error ("Domain action with prefix '" ++ pfx ++ "' not found")

/-- The `wrap` helper of `build_pop_plan_for_acc3`. -/
def wrapPOP (da : Action) (id_suffix : String) : POPAction :=
  { id := id_suffix, name := da.name
    preconditions := da.preconditions, effects := da.add_effects }

/-- `pop_planner.build_pop_plan_for_acc3`. -/
def build_pop_plan_for_acc3 : Except String POPPlan := do
  let (initial_state, domain_actions, goals) ← build_domain_for_acc3
  let start : POPAction :=
    { id := "Start", name := "Start", preconditions := [], effects := initial_state }
  let finish : POPAction :=
    { id := "Finish", name := "Finish", preconditions := goals, effects := [] }
  let da_drone ← find_da domain_actions "TriggerDroneRecon"
  let da_predeploy ← find_da domain_actions "PreDeployAmbulanceNearHotspot"
  let da_notify_h1 ← find_da domain_actions "NotifyHospital"
  let da_request_div ← find_da domain_actions "RequestTrafficDiversion"
  let da_start_transport ← find_da domain_actions "StartTransportToAccident"
  let da_deliver_h1 ← find_da domain_actions "DeliverPatientToH1"
  let da_reroute_h2 ← find_da domain_actions "RerouteMidJourneyToH2"
  let a_drone := wrapPOP da_drone "DroneRecon"
  let a_predeploy := wrapPOP da_predeploy "PredeployA1"
  let a_notify_h1 := wrapPOP da_notify_h1 "NotifyH1"
  let a_request_div := wrapPOP da_request_div "RequestDiversion"
  let a_start_transport := wrapPOP da_start_transport "StartTransport"
  let a_deliver_h1 := wrapPOP da_deliver_h1 "DeliverH1"
  let a_reroute_h2 := wrapPOP da_reroute_h2 "RerouteH2"
  let actionsMap : List (String × POPAction) :=
    [(start.id, start), (finish.id, finish)] ++
      ([a_drone, a_predeploy, a_notify_h1, a_request_div, a_start_transport,
        a_deliver_h1, a_reroute_h2].map (fun a => (a.id, a)))
  let orderings : List (String × String) :=
    (((actionsMap.map Prod.fst).filter (fun aid => aid != "Start")).map
        (fun aid => ("Start", aid)))
    ++ [ (a_drone.id, a_start_transport.id)
       , (a_predeploy.id, a_start_transport.id)
       , (a_request_div.id, a_start_transport.id)
       , (a_notify_h1.id, a_deliver_h1.id)
       , (a_start_transport.id, a_deliver_h1.id)
       , (a_start_transport.id, a_reroute_h2.id)
       , (a_deliver_h1.id, "Finish")
       , (a_reroute_h2.id, "Finish") ]
  let causal_links : List (String × Proposition × String) :=
    ([a_drone, a_predeploy, a_notify_h1, a_request_div].flatMap (fun a =>
      a.preconditions.filterMap (fun p =>
        if start.effects.contains p then some ("Start", p, a.id) else none)))
    ++ (a_start_transport.preconditions.filterMap (fun p =>
         if strContainsSub "AccidentLocationConfirmed" p then
           some (a_drone.id, p, a_start_transport.id) else none))
    ++ (a_start_transport.preconditions.filterMap (fun p =>
         if strContainsSub "AmbulanceAt" p && strContainsSub "nayapalli_chowk" p then
           some (a_predeploy.id, p, a_start_transport.id) else none))
    ++ (a_start_transport.preconditions.filterMap (fun p =>
         if "TrafficDiverted(stadium_corridor)" == p then
           some (a_request_div.id, p, a_start_transport.id) else none))
    ++ (a_deliver_h1.preconditions.filterMap (fun p =>
         if strContainsSub "HospitalNotified" p then
           some (a_notify_h1.id, p, a_deliver_h1.id) else none))
    ++ (a_deliver_h1.preconditions.filterMap (fun p =>
         if strContainsSub "AmbulanceEnRoute" p then
           some (a_start_transport.id, p, a_deliver_h1.id) else none))
    ++ (a_reroute_h2.preconditions.filterMap (fun p =>
         if strContainsSub "AmbulanceEnRoute" p then
           some (a_start_transport.id, p, a_reroute_h2.id) else none))
  let branches : List Branch :=
    [ { condition := "CTAvailable(H2)", actions := [a_reroute_h2.id]
        description := "If CT scanner at H2 becomes available while A1 is en route, reroute mid-way to H2 for faster imaging." }
    , { condition := "CTOffline(H2)", actions := [a_deliver_h1.id]
        description := "If H2 CT remains offline, continue with baseline plan and deliver the patient to H1 (trauma centre)." } ]
  return { actions := actionsMap, orderings := orderings
           causal_links := causal_links, branches := branches }

/-! ## Reachability in the ordering graph

Used to state the causal-link and acyclicity claims: `reaches edges a b` is a
fuel-bounded depth-first search deciding whether `b` is reachable from `a`
through zero or more `edges`, i.e. membership of `(a, b)` in the
reflexive-transitive closure (the fuel bound exceeds the total number of stack
pushes any search on `edges` can perform). -/

def succsOf (edges : List (String × String)) (v : String) : List String :=
  edges.filterMap (fun e => if e.1 == v then some e.2 else none)

def reachAux (edges : List (String × String)) (target : String) :
    Nat → List String → List String → Bool
  | 0, _, _ => false
  | _ + 1, [], _ => false
  | fuel + 1, v :: stack, visited =>
    if v == target then true
    else if visited.contains v then reachAux edges target fuel stack visited
    else reachAux edges target fuel (succsOf edges v ++ stack) (v :: visited)

def reaches (edges : List (String × String)) (a b : String) : Bool :=
  reachAux edges b ((2 * edges.length + 2) * (edges.length + 1)) [a] []

/-- Strictly-earlier in the partial order: a nonempty path from `a` to `b`. -/
def strictlyBefore (edges : List (String × String)) (a b : String) : Bool :=
  (succsOf edges a).any (fun w => reaches edges w b)

/-- No node of the edge set lies on a nonempty cycle. -/
def orderingsAcyclic (edges : List (String × String)) : Bool :=
  (edges.map Prod.fst ++ edges.map Prod.snd).all
    (fun v => !(strictlyBefore edges v v))

/-! ## Basic lemmas about the set primitives -/

theorem contains_iff_mem (l : List String) (x : String) :
    l.contains x = true ↔ x ∈ l :=
  List.elem_iff

theorem mem_unionList {xs ys : List Proposition} {x : Proposition} :
    x ∈ unionList xs ys ↔ x ∈ xs ∨ x ∈ ys := by
  simp only [unionList, List.mem_append, List.mem_filter, Bool.not_eq_true']
  constructor
  · rintro (h | ⟨h, _⟩)
    · exact Or.inl h
    · exact Or.inr h
  · intro h
    by_cases hx : x ∈ xs
    · exact Or.inl hx
    · rcases h with h | h
      · exact Or.inl h
      · refine Or.inr ⟨h, ?_⟩
        rw [← Bool.not_eq_true, contains_iff_mem]
        exact hx

theorem subsetB_iff {xs ys : List Proposition} :
    subsetB xs ys = true ↔ ∀ x ∈ xs, x ∈ ys := by
  simp only [subsetB, List.all_eq_true, contains_iff_mem]

theorem mem_foldl_unionList {β : Type} (f : β → List Proposition) (l : List β)
    (init : List Proposition) (p : Proposition) :
    p ∈ l.foldl (fun acc a => unionList acc (f a)) init ↔
      p ∈ init ∨ ∃ a ∈ l, p ∈ f a := by
  induction l generalizing init with
  | nil => simp
  | cons b rest ih =>
    simp only [List.foldl_cons, ih, mem_unionList, List.mem_cons]
    constructor
    · rintro ((h | h) | ⟨a, ha, hp⟩)
      · exact Or.inl h
      · exact Or.inr ⟨b, Or.inl rfl, h⟩
      · exact Or.inr ⟨a, Or.inr ha, hp⟩
    · rintro (h | ⟨a, (rfl | ha), hp⟩)
      · exact Or.inl (Or.inl h)
      · exact Or.inl (Or.inr hp)
      · exact Or.inr ⟨a, ha, hp⟩

/-! ## Characterisation of the plan-graph layers -/

theorem mem_layerA {initS : List Proposition} {actions : List Action} {j : Nat}
    {a : Action} :
    a ∈ layerA initS actions j ↔
      a ∈ actions ∧ ∀ p ∈ a.preconditions, p ∈ layerP initS actions j := by
  simp only [layerA, applicableActions, List.mem_filter, subsetB_iff]

theorem mem_layerP_succ {initS : List Proposition} {actions : List Action} {j : Nat}
    {p : Proposition} :
    p ∈ layerP initS actions (j + 1) ↔
      p ∈ layerP initS actions j ∨
        ∃ a ∈ layerA initS actions j, p ∈ a.add_effects := by
  show p ∈ addAllEffects _ _ ↔ _
  rw [addAllEffects, mem_foldl_unionList]
  rfl

theorem layerP_mono {initS : List Proposition} {actions : List Action} {j : Nat}
    {p : Proposition} (h : p ∈ layerP initS actions j) :
    p ∈ layerP initS actions (j + 1) :=
  mem_layerP_succ.mpr (Or.inl h)

/-! ## Characterisation of `build_plan_graph` -/

theorem bpgAux_step (actions : List Action) (goals : List Proposition)
    (initS : List Proposition) (fuel lvl : Nat)
    (pAcc : List (List Proposition)) (aAcc : List (List Action)) :
    build_plan_graph_aux actions goals (fuel + 1) (layerP initS actions lvl)
        pAcc aAcc lvl =
      if subsetB goals (layerP initS actions (lvl + 1)) = true then
        .ok (⟨pAcc ++ [layerP initS actions (lvl + 1)],
              aAcc ++ [layerA initS actions lvl]⟩, lvl + 1)
      else
        build_plan_graph_aux actions goals fuel (layerP initS actions (lvl + 1))
          (pAcc ++ [layerP initS actions (lvl + 1)])
          (aAcc ++ [layerA initS actions lvl]) (lvl + 1) := rfl

theorem bpgAux_ok (actions : List Action) (goals : List Proposition)
    (initS : List Proposition) :
    ∀ (fuel lvl : Nat) (pg : PlanGraph) (k : Nat),
      build_plan_graph_aux actions goals fuel (layerP initS actions lvl)
        ((List.range (lvl + 1)).map (layerP initS actions))
        ((List.range lvl).map (layerA initS actions)) lvl = .ok (pg, k) →
      lvl < k ∧ k ≤ lvl + fuel ∧
      subsetB goals (layerP initS actions k) = true ∧
      (∀ j, lvl < j → j < k → subsetB goals (layerP initS actions j) = false) ∧
      pg.proposition_layers = (List.range (k + 1)).map (layerP initS actions) ∧
      pg.action_layers = (List.range k).map (layerA initS actions) := by
  intro fuel
  induction fuel with
  | zero =>
    intro lvl pg k h
    exact absurd h (by simp [build_plan_graph_aux])
  | succ fuel ih =>
    intro lvl pg k h
    rw [bpgAux_step] at h
    by_cases hsub : subsetB goals (layerP initS actions (lvl + 1)) = true
    · rw [if_pos hsub] at h
      obtain ⟨hpg, hk⟩ : (⟨_, _⟩ : PlanGraph) = pg ∧ lvl + 1 = k := by
        constructor <;> cases h <;> rfl
      subst hk
      refine ⟨Nat.lt_succ_self lvl, by omega, hsub, ?_, ?_, ?_⟩
      · intro j h1 h2
        omega
      · rw [← hpg]
        simp [List.range_succ]
      · rw [← hpg]
        simp [List.range_succ]
    · rw [if_neg hsub] at h
      have haccp : (List.range (lvl + 1)).map (layerP initS actions) ++
          [layerP initS actions (lvl + 1)] =
          (List.range (lvl + 1 + 1)).map (layerP initS actions) := by
        simp [List.range_succ]
      have hacca : (List.range lvl).map (layerA initS actions) ++
          [layerA initS actions lvl] =
          (List.range (lvl + 1)).map (layerA initS actions) := by
        simp [List.range_succ]
      rw [haccp, hacca] at h
      obtain ⟨h1, h2, h3, h4, h5, h6⟩ := ih (lvl + 1) pg k h
      refine ⟨by omega, by omega, h3, ?_, h5, h6⟩
      intro j hj1 hj2
      rcases Nat.eq_or_lt_of_le (Nat.succ_le_of_lt hj1) with hj | hj
      · rw [← hj]
        simpa using hsub
      · exact h4 j hj hj2

theorem bpgAux_err (actions : List Action) (goals : List Proposition)
    (initS : List Proposition) :
    ∀ (fuel lvl : Nat) (e : String),
      build_plan_graph_aux actions goals fuel (layerP initS actions lvl)
        ((List.range (lvl + 1)).map (layerP initS actions))
        ((List.range lvl).map (layerA initS actions)) lvl = .error e →
      ∀ j, lvl < j → j ≤ lvl + fuel →
        subsetB goals (layerP initS actions j) = false := by
  intro fuel
  induction fuel with
  | zero =>
    intro lvl e _ j h1 h2
    omega
  | succ fuel ih =>
    intro lvl e h j h1 h2
    rw [bpgAux_step] at h
    by_cases hsub : subsetB goals (layerP initS actions (lvl + 1)) = true
    · rw [if_pos hsub] at h
      exact absurd h (by simp)
    · rw [if_neg hsub] at h
      have haccp : (List.range (lvl + 1)).map (layerP initS actions) ++
          [layerP initS actions (lvl + 1)] =
          (List.range (lvl + 1 + 1)).map (layerP initS actions) := by
        simp [List.range_succ]
      have hacca : (List.range lvl).map (layerA initS actions) ++
          [layerA initS actions lvl] =
          (List.range (lvl + 1)).map (layerA initS actions) := by
        simp [List.range_succ]
      rw [haccp, hacca] at h
      rcases Nat.eq_or_lt_of_le (Nat.succ_le_of_lt h1) with hj | hj
      · rw [← hj]
        simpa using hsub
      · exact ih (lvl + 1) e h j hj (by omega)

/-- Success characterisation of `build_plan_graph`: the returned index is the
least level in `1..max_levels` whose proposition layer covers the goals, and
the returned graph consists exactly of the iterated layers up to that index. -/
theorem build_plan_graph_ok {initS : List Proposition} {actions : List Action}
    {goals : List Proposition} {max_levels : Nat} {pg : PlanGraph} {k : Nat}
    (h : build_plan_graph initS actions goals max_levels = .ok (pg, k)) :
    1 ≤ k ∧ k ≤ max_levels ∧
    subsetB goals (layerP initS actions k) = true ∧
    (∀ j, 1 ≤ j → j < k → subsetB goals (layerP initS actions j) = false) ∧
    pg.proposition_layers = (List.range (k + 1)).map (layerP initS actions) ∧
    pg.action_layers = (List.range k).map (layerA initS actions) := by
  have h0 : build_plan_graph_aux actions goals max_levels
      (layerP initS actions 0)
      ((List.range (0 + 1)).map (layerP initS actions))
      ((List.range 0).map (layerA initS actions)) 0 = .ok (pg, k) := h
  obtain ⟨h1, h2, h3, h4, h5, h6⟩ := bpgAux_ok actions goals initS max_levels 0 pg k h0
  exact ⟨h1, by omega, h3, fun j hj1 hj2 => h4 j hj1 hj2, h5, h6⟩

/-- Failure characterisation of `build_plan_graph`: on `.error`, no level in
`1..max_levels` covers the goals. -/
theorem build_plan_graph_err {initS : List Proposition} {actions : List Action}
    {goals : List Proposition} {max_levels : Nat} {e : String}
    (h : build_plan_graph initS actions goals max_levels = .error e) :
    ∀ j, 1 ≤ j → j ≤ max_levels →
      subsetB goals (layerP initS actions j) = false := by
  have h0 : build_plan_graph_aux actions goals max_levels
      (layerP initS actions 0)
      ((List.range (0 + 1)).map (layerP initS actions))
      ((List.range 0).map (layerA initS actions)) 0 = .error e := h
  intro j hj1 hj2
  exact bpgAux_err actions goals initS max_levels 0 e h0 j hj1 (by omega)

/-! ## Decomposition of `extract_linear_plan` into per-level blocks

`Gb initS acts gls K r` is the working goal set of the backward loop after `r`
of the `K` levels have been processed (levels run from `K` down to `1`; step
`r` processes level `K - r`, which reads proposition layer `K - r - 1` and
action layer `K - r - 1`).  `Bb … r` is the list of supporters appended during
step `r`, and `joinB … r` the concatenation of the first `r` blocks. -/

def Gb (initS : List Proposition) (acts : List Action) (gls : List Proposition)
    (K : Nat) : Nat → List Proposition
  | 0 => gls
  | r + 1 =>
    unionList (Gb initS acts gls K r)
      (extractLevel (layerP initS acts (K - r - 1)) (layerA initS acts (K - r - 1))
        (Gb initS acts gls K r)).2

def Bb (initS : List Proposition) (acts : List Action) (gls : List Proposition)
    (K : Nat) (r : Nat) : List Action :=
  (extractLevel (layerP initS acts (K - r - 1)) (layerA initS acts (K - r - 1))
    (Gb initS acts gls K r)).1

def joinB (initS : List Proposition) (acts : List Action) (gls : List Proposition)
    (K : Nat) : Nat → List Action
  | 0 => []
  | r + 1 => joinB initS acts gls K r ++ Bb initS acts gls K r

theorem supporterFor_some {props : List Proposition} {ap : List Action}
    {g : Proposition} {a : Action} (h : supporterFor props ap g = some a) :
    a ∈ ap ∧ g ∈ a.add_effects ∧ g ∉ props := by
  rw [supporterFor] at h
  by_cases hc : props.contains g = true
  · rw [if_pos hc] at h
    exact absurd h (by simp)
  · rw [if_neg hc] at h
    refine ⟨List.mem_of_find?_eq_some h, ?_, ?_⟩
    · have := List.find?_some h
      rwa [contains_iff_mem] at this
    · rw [← contains_iff_mem]
      simpa using hc

theorem supporterFor_exists {props : List Proposition} {ap : List Action}
    {g : Proposition} (hg : g ∉ props) (hex : ∃ a ∈ ap, g ∈ a.add_effects) :
    ∃ a, supporterFor props ap g = some a := by
  rw [supporterFor, if_neg (by rw [contains_iff_mem]; exact hg)]
  obtain ⟨a, ha, hadd⟩ := hex
  have : (ap.find? (fun a => a.add_effects.contains g)).isSome := by
    rw [List.find?_isSome]
    exact ⟨a, ha, by rwa [contains_iff_mem]⟩
  exact Option.isSome_iff_exists.mp this

theorem mem_extractLevel_fst {props : List Proposition} {ap : List Action}
    {gl : List Proposition} {a : Action} :
    a ∈ (extractLevel props ap gl).1 ↔
      ∃ g ∈ gl, supporterFor props ap g = some a := by
  simp [extractLevel, List.mem_filterMap]

theorem mem_extractLevel_snd {props : List Proposition} {ap : List Action}
    {gl : List Proposition} {p : Proposition} :
    p ∈ (extractLevel props ap gl).2 ↔
      ∃ a ∈ (extractLevel props ap gl).1, p ∈ a.preconditions := by
  show p ∈ List.foldl _ [] _ ↔ _
  rw [mem_foldl_unionList]
  simp [extractLevel]

theorem Gb_zero (initS : List Proposition) (acts : List Action)
    (gls : List Proposition) (K : Nat) : Gb initS acts gls K 0 = gls := rfl

theorem Gb_mono {initS : List Proposition} {acts : List Action}
    {gls : List Proposition} {K r : Nat} {p : Proposition}
    (h : p ∈ Gb initS acts gls K r) : p ∈ Gb initS acts gls K (r + 1) := by
  rw [Gb]
  exact mem_unionList.mpr (Or.inl h)

theorem Bb_spec {initS : List Proposition} {acts : List Action}
    {gls : List Proposition} {K r : Nat} {a : Action}
    (h : a ∈ Bb initS acts gls K r) :
    a ∈ layerA initS acts (K - r - 1) ∧ ∃ g ∈ Gb initS acts gls K r,
      g ∈ a.add_effects := by
  rw [Bb, mem_extractLevel_fst] at h
  obtain ⟨g, hg, hs⟩ := h
  obtain ⟨hmem, hadd, _⟩ := supporterFor_some hs
  exact ⟨hmem, g, hg, hadd⟩

theorem Bb_sub_acts {initS : List Proposition} {acts : List Action}
    {gls : List Proposition} {K r : Nat} {a : Action}
    (h : a ∈ Bb initS acts gls K r) : a ∈ acts :=
  (mem_layerA.mp (Bb_spec h).1).1

theorem pre_mem_Gb_succ {initS : List Proposition} {acts : List Action}
    {gls : List Proposition} {K r : Nat} {a : Action} {p : Proposition}
    (ha : a ∈ Bb initS acts gls K r) (hp : p ∈ a.preconditions) :
    p ∈ Gb initS acts gls K (r + 1) := by
  rw [Gb]
  refine mem_unionList.mpr (Or.inr ?_)
  rw [mem_extractLevel_snd]
  exact ⟨a, ha, hp⟩

theorem mem_joinB {initS : List Proposition} {acts : List Action}
    {gls : List Proposition} {K : Nat} :
    ∀ {r : Nat} {a : Action}, a ∈ joinB initS acts gls K r ↔
      ∃ r2, r2 < r ∧ a ∈ Bb initS acts gls K r2 := by
  intro r
  induction r with
  | zero => simp [joinB]
  | succ r ih =>
    intro a
    rw [joinB, List.mem_append, ih]
    constructor
    · rintro (⟨r2, h1, h2⟩ | h)
      · exact ⟨r2, by omega, h2⟩
      · exact ⟨r, by omega, h⟩
    · rintro ⟨r2, h1, h2⟩
      rcases Nat.lt_succ_iff_lt_or_eq.mp h1 with h | h
      · exact Or.inl ⟨r2, h, h2⟩
      · subst h
        exact Or.inr h2

/-- The decisive invariant of the backward extraction: a proposition that is in
the working goal set when level `l` is about to be processed and is true at
layer `l` is either an initial-state fact or gets an explicit supporter in one
of the blocks for levels `l, l-1, …, 1` (i.e. block indices `K-l … K-1`). -/
theorem coveredAt {initS : List Proposition} {acts : List Action}
    {gls : List Proposition} {K : Nat} :
    ∀ n, n + 1 ≤ K → ∀ p, p ∈ Gb initS acts gls K (K - (n + 1)) →
      p ∈ layerP initS acts (n + 1) →
      p ∈ layerP initS acts 0 ∨
        ∃ r, K - (n + 1) ≤ r ∧ r ≤ K - 1 ∧
          ∃ b ∈ Bb initS acts gls K r, p ∈ b.add_effects := by
  intro n
  induction n with
  | zero =>
    intro hK p hpg hp1
    by_cases hp0 : p ∈ layerP initS acts 0
    · exact Or.inl hp0
    · rcases mem_layerP_succ.mp hp1 with h | hex
      · exact absurd h hp0
      · obtain ⟨s, hs⟩ := supporterFor_exists hp0 hex
        refine Or.inr ⟨K - 1, le_refl _, le_refl _, s, ?_, (supporterFor_some hs).2.1⟩
        rw [Bb, mem_extractLevel_fst]
        have e1 : K - (K - 1) - 1 = 0 := by omega
        rw [e1]
        exact ⟨p, hpg, hs⟩
  | succ n ih =>
    intro hK p hpg hp2
    by_cases hp1 : p ∈ layerP initS acts (n + 1)
    · have e1 : K - (n + 2) + 1 = K - (n + 1) := by omega
      have hpg1 : p ∈ Gb initS acts gls K (K - (n + 1)) := by
        rw [← e1]
        exact Gb_mono hpg
      rcases ih (by omega) p hpg1 hp1 with h | ⟨r, hr1, hr2, hb⟩
      · exact Or.inl h
      · exact Or.inr ⟨r, by omega, hr2, hb⟩
    · rcases mem_layerP_succ.mp hp2 with h | hex
      · exact absurd h hp1
      · obtain ⟨s, hs⟩ := supporterFor_exists hp1 hex
        refine Or.inr ⟨K - (n + 2), le_refl _, by omega, s, ?_,
          (supporterFor_some hs).2.1⟩
        rw [Bb, mem_extractLevel_fst]
        have e1 : K - (K - (n + 2)) - 1 = n + 1 := by omega
        rw [e1]
        exact ⟨p, hpg, hs⟩

/-- Preconditions of actions chosen in block `r` are initial facts or have a
supporter in a strictly later block (an earlier level). -/
theorem Bb_covered {initS : List Proposition} {acts : List Action}
    {gls : List Proposition} {K : Nat} {r : Nat} (hr : r + 1 ≤ K)
    {a : Action} (ha : a ∈ Bb initS acts gls K r) :
    ∀ p ∈ a.preconditions,
      p ∈ layerP initS acts 0 ∨
        ∃ r2, r + 1 ≤ r2 ∧ r2 ≤ K - 1 ∧
          ∃ b ∈ Bb initS acts gls K r2, p ∈ b.add_effects := by
  intro p hp
  have hpre : p ∈ layerP initS acts (K - r - 1) :=
    (mem_layerA.mp (Bb_spec ha).1).2 p hp
  by_cases hlvl : K - r - 1 = 0
  · rw [hlvl] at hpre
    exact Or.inl hpre
  · have hn : ∃ n, K - r - 1 = n + 1 := ⟨K - r - 2, by omega⟩
    obtain ⟨n, hn⟩ := hn
    have hGb : p ∈ Gb initS acts gls K (K - (n + 1)) := by
      have e1 : K - (n + 1) = r + 1 := by omega
      rw [e1]
      exact pre_mem_Gb_succ ha hp
    rcases coveredAt n (by omega) p hGb (hn ▸ hpre) with h | ⟨r2, hr1, hr2, hb⟩
    · exact Or.inl h
    · exact Or.inr ⟨r2, by omega, hr2, hb⟩

theorem getD_range_map {β : Type} (f : Nat → β) (d : β) {n i : Nat} (h : i < n) :
    (((List.range n).map f).getD i d) = f i := by
  rw [List.getD_eq_getElem?_getD, List.getElem?_map, List.getElem?_range h]
  rfl

/-- Running the backward loop over the layer lists of a successful graph is the
same as concatenating the per-level blocks. -/
theorem extractLoop_run {initS : List Proposition} {acts : List Action}
    {gls : List Proposition} {K : Nat} :
    ∀ n, n ≤ K →
      extractLoopIter ((List.range (K + 1)).map (layerP initS acts))
        ((List.range K).map (layerA initS acts)) (fun l => l) n
        (joinB initS acts gls K (K - n), Gb initS acts gls K (K - n)) =
      (joinB initS acts gls K K, Gb initS acts gls K K) := by
  intro n
  induction n with
  | zero => simp [extractLoopIter]
  | succ n ih =>
    intro h
    rw [extractLoopIter]
    rw [getD_range_map _ _ (by omega : n < K + 1), getD_range_map _ _ (by omega : n < K)]
    have e1 : K - (n + 1) = K - n - 1 := by omega
    have e2 : K - (K - (n + 1)) - 1 = n := by omega
    have hblock : extractLevel (layerP initS acts n) (layerA initS acts n)
        (Gb initS acts gls K (K - (n + 1))) =
        (Bb initS acts gls K (K - (n + 1)),
         (extractLevel (layerP initS acts (K - (K - (n + 1)) - 1))
            (layerA initS acts (K - (K - (n + 1)) - 1))
            (Gb initS acts gls K (K - (n + 1)))).2) := by
      rw [Bb, e2]
    rw [hblock]
    have e3 : K - n = (K - (n + 1)) + 1 := by omega
    have hjoin : joinB initS acts gls K (K - (n + 1)) ++ Bb initS acts gls K (K - (n + 1)) =
        joinB initS acts gls K (K - n) := by
      rw [e3, joinB]
    have hgoal : unionList (Gb initS acts gls K (K - (n + 1)))
        (extractLevel (layerP initS acts (K - (K - (n + 1)) - 1))
          (layerA initS acts (K - (K - (n + 1)) - 1))
          (Gb initS acts gls K (K - (n + 1)))).2 =
        Gb initS acts gls K (K - n) := by
      rw [e3, Gb]
    rw [hjoin, hgoal]
    exact ih (by omega)

/-- `extract_linear_plan` on the layers of a successful `build_plan_graph` run
is the deduplicated reverse of the block concatenation. -/
theorem extract_linear_plan_blocks {initS : List Proposition} {acts : List Action}
    {gls : List Proposition} {K : Nat} :
    extract_linear_plan
        ⟨(List.range (K + 1)).map (layerP initS acts),
         (List.range K).map (layerA initS acts)⟩ K gls =
      dedupByName (joinB initS acts gls K K).reverse [] := by
  rw [extract_linear_plan, extract_linear_plan_iter]
  have h0 : (joinB initS acts gls K (K - K), Gb initS acts gls K (K - K)) =
      (([] : List Action), gls) := by
    rw [Nat.sub_self]
    rfl
  have := @extractLoop_run initS acts gls K K (le_refl K)
  rw [h0] at this
  rw [this]

/-! ## Forward simulation of a plan (claim C1's output contract)

Per the simplification of the source (§ delete effects ignored during
planning), simulation only accumulates `add_effects`. -/

/-- The accumulated proposition set after running a plan forward. -/
def simulateAdds (state : List Proposition) (plan : List Action) : List Proposition :=
  plan.foldl (fun st a => unionList st a.add_effects) state

/-- `execOkB state plan` checks that every action's preconditions hold in the
accumulated state at the point the action executes. -/
def execOkB (state : List Proposition) : List Action → Bool
  | [] => true
  | a :: rest =>
    a.preconditions.all (fun p => state.contains p) &&
      execOkB (unionList state a.add_effects) rest

theorem mem_simulateAdds {state : List Proposition} {plan : List Action}
    {p : Proposition} :
    p ∈ simulateAdds state plan ↔ p ∈ state ∨ ∃ a ∈ plan, p ∈ a.add_effects :=
  mem_foldl_unionList _ _ _ _

/-- Every precondition of every plan element is covered by `S` or by the add
effects of a strictly earlier plan element. -/
def Covered (S : Proposition → Prop) (plan : List Action) : Prop :=
  ∀ u a v, plan = u ++ a :: v → ∀ p ∈ a.preconditions,
    S p ∨ ∃ b ∈ u, p ∈ b.add_effects

theorem Covered_ext {S T : Proposition → Prop} (h : ∀ p, S p ↔ T p)
    {plan : List Action} (hc : Covered S plan) : Covered T plan := by
  intro u a v he p hp
  rcases hc u a v he p hp with hS | hb
  · exact Or.inl ((h p).mp hS)
  · exact Or.inr hb

theorem execOkB_of_covered :
    ∀ (plan : List Action) (state : List Proposition),
      Covered (fun p => p ∈ state) plan → execOkB state plan = true := by
  intro plan
  induction plan with
  | nil => intro state _; rfl
  | cons a rest ih =>
    intro state h
    rw [execOkB, Bool.and_eq_true]
    constructor
    · rw [List.all_eq_true]
      intro p hp
      rcases h [] a rest rfl p hp with hS | ⟨b, hb, _⟩
      · rwa [contains_iff_mem]
      · exact absurd hb (List.not_mem_nil b)
    · refine ih _ ?_
      intro u x v he p hp
      rcases h (a :: u) x v (by rw [he]; rfl) p hp with hS | ⟨b, hb, hadd⟩
      · exact Or.inl (mem_unionList.mpr (Or.inl hS))
      · rcases List.mem_cons.mp hb with rfl | hb
        · exact Or.inl (mem_unionList.mpr (Or.inr hadd))
        · exact Or.inr ⟨b, hb, hadd⟩

/-- Blocks in order, each block's preconditions covered by `S` or by the add
effects of strictly earlier blocks. -/
def BlocksGood : (Proposition → Prop) → List (List Action) → Prop
  | _, [] => True
  | S, B :: rest =>
    (∀ a ∈ B, ∀ p ∈ a.preconditions, S p) ∧
      BlocksGood (fun p => S p ∨ ∃ b ∈ B, p ∈ b.add_effects) rest

theorem BlocksGood_ext :
    ∀ {Bs : List (List Action)} {S T : Proposition → Prop},
      (∀ p, S p ↔ T p) → BlocksGood S Bs → BlocksGood T Bs := by
  intro Bs
  induction Bs with
  | nil => intro S T _ _; trivial
  | cons B rest ih =>
    intro S T hST h
    refine ⟨fun a ha p hp => (hST p).mp (h.1 a ha p hp), ?_⟩
    refine ih ?_ h.2
    intro p
    rw [hST p]

theorem append_eq_append_cons {β : Type} :
    ∀ (B R u : List β) (a : β) (v : List β), B ++ R = u ++ a :: v →
      (∃ v1, B = u ++ a :: v1) ∨ (∃ u2, u = B ++ u2 ∧ R = u2 ++ a :: v) := by
  intro B
  induction B with
  | nil =>
    intro R u a v h
    exact Or.inr ⟨u, rfl, h⟩
  | cons x B ih =>
    intro R u a v h
    cases u with
    | nil =>
      simp only [List.nil_append, List.cons_append, List.cons.injEq] at h
      exact Or.inl ⟨B, by rw [h.1]; rfl⟩
    | cons y u =>
      simp only [List.cons_append, List.cons.injEq] at h
      rcases ih R u a v h.2 with ⟨v1, hv⟩ | ⟨u2, hu, hR⟩
      · exact Or.inl ⟨v1, by rw [h.1, hv]; rfl⟩
      · exact Or.inr ⟨u2, by rw [h.1, hu]; rfl, hR⟩

theorem blocksGood_covered :
    ∀ (Bs : List (List Action)) (S : Proposition → Prop),
      BlocksGood S Bs → Covered S Bs.flatten := by
  intro Bs
  induction Bs with
  | nil =>
    intro S _ u a v he
    exact absurd he (by simp)
  | cons B rest ih =>
    intro S h u a v he
    rw [List.flatten_cons] at he
    intro p hp
    rcases append_eq_append_cons B rest.flatten u a v he with ⟨v1, hB⟩ | ⟨u2, hu, hR⟩
    · have ha : a ∈ B := by
        rw [hB]
        exact List.mem_append.mpr (Or.inr (List.mem_cons_self a v1))
      exact Or.inl (h.1 a ha p hp)
    · rcases ih _ h.2 u2 a v hR p hp with hS | ⟨b, hb, hadd⟩
      · rcases hS with hS | ⟨b, hb, hadd⟩
        · exact Or.inl hS
        · exact Or.inr ⟨b, by rw [hu]; exact List.mem_append.mpr (Or.inl hb), hadd⟩
      · exact Or.inr ⟨b, by rw [hu]; exact List.mem_append.mpr (Or.inr hb), hadd⟩

/-- Transfer of coverage through the name-based deduplication pass: dropped
duplicates are (by name-injectivity) equal to an already-kept action, so the
providers survive. -/
theorem dedupByName_covered (S : Proposition → Prop) :
    ∀ (L C : List Action) (seen : List String),
      (∀ x y : Action, (x ∈ C ∨ x ∈ L) → (y ∈ C ∨ y ∈ L) → x.name = y.name → x = y) →
      (∀ n, n ∈ seen ↔ ∃ b ∈ C, b.name = n) →
      (∀ u a v, L = u ++ a :: v → ∀ p ∈ a.preconditions,
        S p ∨ ∃ b, (b ∈ C ∨ b ∈ u) ∧ p ∈ b.add_effects) →
      Covered (fun p => S p ∨ ∃ b ∈ C, p ∈ b.add_effects) (dedupByName L seen) := by
  intro L
  induction L with
  | nil =>
    intro C seen _ _ _ u a v he
    exact absurd he (by simp [dedupByName])
  | cons a rest ih =>
    intro C seen hinj hseen hcov
    rw [dedupByName]
    by_cases hm : seen.contains a.name = true
    · rw [if_pos hm]
      have haC : a ∈ C := by
        obtain ⟨c, hc, hcn⟩ := (hseen a.name).mp (contains_iff_mem _ _ |>.mp hm)
        have : c = a := hinj c a (Or.inl hc) (Or.inr (List.mem_cons_self a rest)) hcn
        rwa [← this]
      refine ih C seen ?_ hseen ?_
      · intro x y hx hy
        refine hinj x y ?_ ?_
        · rcases hx with hx | hx
          · exact Or.inl hx
          · exact Or.inr (List.mem_cons_of_mem a hx)
        · rcases hy with hy | hy
          · exact Or.inl hy
          · exact Or.inr (List.mem_cons_of_mem a hy)
      · intro u x v he p hp
        rcases hcov (a :: u) x v (by rw [he]; rfl) p hp with hS | ⟨b, hb, hadd⟩
        · exact Or.inl hS
        · rcases hb with hb | hb
          · exact Or.inr ⟨b, Or.inl hb, hadd⟩
          · rcases List.mem_cons.mp hb with rfl | hb
            · exact Or.inr ⟨b, Or.inl haC, hadd⟩
            · exact Or.inr ⟨b, Or.inr hb, hadd⟩
    · rw [if_neg hm]
      have key := ih (C ++ [a]) (a.name :: seen) ?_ ?_ ?_
      · intro u x v he p hp
        cases u with
        | nil =>
          simp only [List.nil_append, List.cons.injEq] at he
          obtain ⟨hax, _⟩ := he
          subst hax
          rcases hcov [] a rest rfl p hp with hS | ⟨b, hb, hadd⟩
          · exact Or.inl (Or.inl hS)
          · rcases hb with hb | hb
            · exact Or.inl (Or.inr ⟨b, hb, hadd⟩)
            · exact absurd hb (List.not_mem_nil b)
        | cons y u =>
          simp only [List.cons_append, List.cons.injEq] at he
          rcases key u x v he.2 p hp with hS | ⟨b, hb, hadd⟩
          · rcases hS with hS | ⟨b, hb, hadd⟩
            · exact Or.inl (Or.inl hS)
            · rcases List.mem_append.mp hb with hb | hb
              · exact Or.inl (Or.inr ⟨b, hb, hadd⟩)
              · have hba : b = a := List.mem_singleton.mp hb
                refine Or.inr ⟨b, ?_, hadd⟩
                rw [hba, he.1]
                exact List.mem_cons_self y u
          · exact Or.inr ⟨b, List.mem_cons_of_mem y hb, hadd⟩
      · intro x y hx hy
        refine hinj x y ?_ ?_
        · rcases hx with hx | hx
          · rcases List.mem_append.mp hx with hx | hx
            · exact Or.inl hx
            · rcases List.mem_singleton.mp hx with rfl
              exact Or.inr (List.mem_cons_self x rest)
          · exact Or.inr (List.mem_cons_of_mem a hx)
        · rcases hy with hy | hy
          · rcases List.mem_append.mp hy with hy | hy
            · exact Or.inl hy
            · rcases List.mem_singleton.mp hy with rfl
              exact Or.inr (List.mem_cons_self y rest)
          · exact Or.inr (List.mem_cons_of_mem a hy)
      · intro n
        rw [List.mem_cons, hseen n]
        constructor
        · rintro (rfl | ⟨b, hb, hbn⟩)
          · exact ⟨a, List.mem_append.mpr (Or.inr (List.mem_singleton.mpr rfl)), rfl⟩
          · exact ⟨b, List.mem_append.mpr (Or.inl hb), hbn⟩
        · rintro ⟨b, hb, hbn⟩
          rcases List.mem_append.mp hb with hb | hb
          · exact Or.inr ⟨b, hb, hbn⟩
          · rcases List.mem_singleton.mp hb with rfl
            exact Or.inl hbn.symm
      · intro u x v he p hp
        rcases hcov (a :: u) x v (by rw [he]; rfl) p hp with hS | ⟨b, hb, hadd⟩
        · exact Or.inl hS
        · rcases hb with hb | hb
          · exact Or.inr ⟨b, Or.inl (List.mem_append.mpr (Or.inl hb)), hadd⟩
          · rcases List.mem_cons.mp hb with rfl | hb
            · exact Or.inr ⟨b,
                Or.inl (List.mem_append.mpr (Or.inr (List.mem_singleton.mpr rfl))), hadd⟩
            · exact Or.inr ⟨b, Or.inr hb, hadd⟩

/-- The reversed blocks in final-plan order: the block of level 1 first, the
block of level `K` (the top goals) last. -/
def revBlocksFrom (initS : List Proposition) (acts : List Action)
    (gls : List Proposition) (K : Nat) : Nat → List (List Action)
  | 0 => []
  | r + 1 => (Bb initS acts gls K r).reverse :: revBlocksFrom initS acts gls K r

theorem joinB_reverse {initS : List Proposition} {acts : List Action}
    {gls : List Proposition} {K : Nat} :
    ∀ r, (joinB initS acts gls K r).reverse =
      (revBlocksFrom initS acts gls K r).flatten := by
  intro r
  induction r with
  | zero => rfl
  | succ r ih =>
    rw [joinB, revBlocksFrom, List.reverse_append, List.flatten_cons, ih]

theorem blocksGood_rev {initS : List Proposition} {acts : List Action}
    {gls : List Proposition} {K : Nat} :
    ∀ r, r ≤ K →
      BlocksGood
        (fun p => p ∈ layerP initS acts 0 ∨
          ∃ r2, r ≤ r2 ∧ r2 ≤ K - 1 ∧ ∃ b ∈ Bb initS acts gls K r2, p ∈ b.add_effects)
        (revBlocksFrom initS acts gls K r) := by
  intro r
  induction r with
  | zero => intro _; trivial
  | succ r ih =>
    intro hr
    rw [revBlocksFrom]
    constructor
    · intro a ha p hp
      exact Bb_covered hr (List.mem_reverse.mp ha) p hp
    · refine BlocksGood_ext ?_ (ih (by omega))
      intro p
      constructor
      · rintro (h0 | ⟨r2, h1, h2, b, hb, hadd⟩)
        · exact Or.inl (Or.inl h0)
        · rcases Nat.eq_or_lt_of_le h1 with h | h
          · exact Or.inr ⟨b, List.mem_reverse.mpr (h ▸ hb), hadd⟩
          · exact Or.inl (Or.inr ⟨r2, h, h2, b, hb, hadd⟩)
      · rintro ((h0 | ⟨r2, h1, h2, b, hb, hadd⟩) | ⟨b, hb, hadd⟩)
        · exact Or.inl h0
        · exact Or.inr ⟨r2, by omega, h2, b, hb, hadd⟩
        · exact Or.inr ⟨r, le_refl r, by omega, b, List.mem_reverse.mp hb, hadd⟩

theorem blocksGood_initial {initS : List Proposition} {acts : List Action}
    {gls : List Proposition} {K : Nat} (hK : 1 ≤ K) :
    BlocksGood (fun p => p ∈ layerP initS acts 0)
      (revBlocksFrom initS acts gls K K) := by
  refine BlocksGood_ext ?_ (blocksGood_rev K (le_refl K))
  intro p
  constructor
  · rintro (h0 | ⟨r2, h1, h2, _⟩)
    · exact h0
    · omega
  · exact Or.inl

theorem mem_of_mem_dedupByName :
    ∀ (L : List Action) (seen : List String) (a : Action),
      a ∈ dedupByName L seen → a ∈ L := by
  intro L
  induction L with
  | nil => intro seen a h; exact absurd h (by simp [dedupByName])
  | cons x rest ih =>
    intro seen a h
    rw [dedupByName] at h
    by_cases hm : seen.contains x.name = true
    · rw [if_pos hm] at h
      exact List.mem_cons_of_mem x (ih seen a h)
    · rw [if_neg hm] at h
      rcases List.mem_cons.mp h with rfl | h
      · exact List.mem_cons_self a rest
      · exact List.mem_cons_of_mem x (ih _ a h)

theorem dedup_keeps_name :
    ∀ (L : List Action) (seen : List String) (a : Action),
      a ∈ L → a.name ∉ seen → ∃ b ∈ dedupByName L seen, b.name = a.name := by
  intro L
  induction L with
  | nil => intro seen a h; exact absurd h (List.not_mem_nil a)
  | cons x rest ih =>
    intro seen a ha hns
    rw [dedupByName]
    by_cases hm : seen.contains x.name = true
    · rw [if_pos hm]
      rcases List.mem_cons.mp ha with hax | ha
      · rw [hax] at hns
        exact absurd (contains_iff_mem _ _ |>.mp hm) hns
      · exact ih seen a ha hns
    · rw [if_neg hm]
      rcases List.mem_cons.mp ha with hax | ha
      · exact ⟨x, List.mem_cons_self x _, by rw [hax]⟩
      · by_cases hxa : a.name = x.name
        · exact ⟨x, List.mem_cons_self x _, hxa.symm⟩
        · have : a.name ∉ x.name :: seen := by
            intro h
            rcases List.mem_cons.mp h with h | h
            · exact hxa h
            · exact hns h
          obtain ⟨b, hb, hbn⟩ := ih (x.name :: seen) a ha this
          exact ⟨b, List.mem_cons_of_mem x hb, hbn⟩

/-- C1 (amended): provided no two distinct input actions share a name (the
final deduplication of `extract_linear_plan` identifies actions by name), the
plan extracted from any successful `build_plan_graph` run, simulated forward
from the initial state by unioning add effects, satisfies every action's
preconditions at its point of execution and finally covers every goal. -/
theorem extract_linear_plan_sound
    (initS : List Proposition) (acts : List Action) (gls : List Proposition)
    (m : Nat) (pg : PlanGraph) (K : Nat)
    (hok : build_plan_graph initS acts gls m = .ok (pg, K))
    (hnames : (acts.map Action.name).Nodup) :
    execOkB initS (extract_linear_plan pg K gls) = true ∧
      ∀ g ∈ gls, g ∈ simulateAdds initS (extract_linear_plan pg K gls) := by
  obtain ⟨hK1, _, hsub, _, hp, ha⟩ := build_plan_graph_ok hok
  obtain ⟨pl, al⟩ := pg
  simp only at hp ha
  subst hp
  subst ha
  rw [extract_linear_plan_blocks]
  have hinj : ∀ x y : Action, x ∈ acts → y ∈ acts → x.name = y.name → x = y := by
    intro x y hx hy
    exact List.inj_on_of_nodup_map hnames hx hy
  have hmemL : ∀ a : Action, a ∈ (joinB initS acts gls K K).reverse → a ∈ acts := by
    intro a h
    obtain ⟨r2, _, hb⟩ := mem_joinB.mp (List.mem_reverse.mp h)
    exact Bb_sub_acts hb
  have hcovL : Covered (fun p => p ∈ initS) (joinB initS acts gls K K).reverse := by
    have h := blocksGood_covered (revBlocksFrom initS acts gls K K)
      (fun p => p ∈ layerP initS acts 0) (blocksGood_initial hK1)
    rw [← joinB_reverse] at h
    exact h
  have hcovD := dedupByName_covered (fun p => p ∈ initS)
    ((joinB initS acts gls K K).reverse) [] []
    (by
      intro x y hx hy
      refine hinj x y ?_ ?_
      · rcases hx with hx | hx
        · exact absurd hx (List.not_mem_nil x)
        · exact hmemL x hx
      · rcases hy with hy | hy
        · exact absurd hy (List.not_mem_nil y)
        · exact hmemL y hy)
    (by simp)
    (by
      intro u a v he p hp
      rcases hcovL u a v he p hp with hS | ⟨b, hb, hadd⟩
      · exact Or.inl hS
      · exact Or.inr ⟨b, Or.inr hb, hadd⟩)
  constructor
  · refine execOkB_of_covered _ _ (Covered_ext ?_ hcovD)
    intro p
    constructor
    · rintro (h | ⟨b, hb, _⟩)
      · exact h
      · exact absurd hb (List.not_mem_nil b)
    · exact Or.inl
  · intro g hg
    rw [mem_simulateAdds]
    obtain ⟨n, rfl⟩ : ∃ n, K = n + 1 := ⟨K - 1, by omega⟩
    have hgG : g ∈ Gb initS acts gls (n + 1) (n + 1 - (n + 1)) := by
      rw [Nat.sub_self]
      exact hg
    have hgK : g ∈ layerP initS acts (n + 1) := subsetB_iff.mp hsub g hg
    rcases coveredAt n (le_refl (n + 1)) g hgG hgK with h0 | ⟨r, _, hr2, b, hb, hadd⟩
    · exact Or.inl h0
    · have hbL : b ∈ (joinB initS acts gls (n + 1) (n + 1)).reverse :=
        List.mem_reverse.mpr (mem_joinB.mpr ⟨r, by omega, hb⟩)
      obtain ⟨c, hc, hcn⟩ := dedup_keeps_name _ [] b hbL (List.not_mem_nil _)
      have hcb : c = b :=
        hinj c b (hmemL c (mem_of_mem_dedupByName _ _ c hc)) (hmemL b hbL) hcn
      exact Or.inr ⟨b, hcb ▸ hc, hadd⟩

/-- Two distinct ground actions sharing the name `X` (exercises the dedup). -/
def dupA : Action := ⟨"X", [], ["p"], []⟩

def dupB : Action := ⟨"X", ["p"], ["g"], []⟩

/-- The graph `build_plan_graph [] [dupA, dupB] ["g"] 8` returns. -/
def dupGraph : PlanGraph := ⟨[[], ["p"], ["p", "g"]], [[dupA], [dupA, dupB]]⟩

/-- A one-action domain: `MakeQ` turns `p` into `q`. -/
def mkQAction : Action := ⟨"MakeQ", ["p"], ["q"], []⟩

/-- The graph `build_plan_graph ["p"] [mkQAction] ["q"] 8` returns. -/
def mkQGraph : PlanGraph := ⟨[["p"], ["p", "q"]], [[mkQAction]]⟩

/-- C1 (counterexample to the claim as stated): with two distinct actions that
share the name `X`, `build_plan_graph` succeeds, but the extracted linear plan
(the name-based dedup drops the goal-producing action) does not reach the
goals when simulated forward: the claim's output contract fails. -/
theorem extract_linear_plan_sound_counterexample :
    build_plan_graph [] [dupA, dupB] ["g"] 8 = .ok (dupGraph, 2) ∧
    ¬ (execOkB [] (extract_linear_plan dupGraph 2 ["g"]) = true ∧
        ∀ g ∈ ["g"], g ∈ simulateAdds [] (extract_linear_plan dupGraph 2 ["g"])) := by
  constructor
  · rfl
  · decide

/-- Witness for the amended C1 on a concrete one-action domain. -/
theorem extract_linear_plan_sound_witness :
    execOkB ["p"] (extract_linear_plan mkQGraph 1 ["q"]) = true ∧
      ∀ g ∈ ["q"], g ∈ simulateAdds ["p"] (extract_linear_plan mkQGraph 1 ["q"]) :=
  extract_linear_plan_sound ["p"] [mkQAction] ["q"] 8 mkQGraph 1 rfl (by decide)

theorem bpgAux_err_msg (actions : List Action) (goals : List Proposition) :
    ∀ (fuel : Nat) (cur : List Proposition) (pAcc : List (List Proposition))
      (aAcc : List (List Action)) (lvl : Nat) (e : String),
      build_plan_graph_aux actions goals fuel cur pAcc aAcc lvl = .error e →
      e = planNotFoundMsg := by
  intro fuel
  induction fuel with
  | zero =>
    intro cur pAcc aAcc lvl e h
    rw [build_plan_graph_aux] at h
    injection h with h1
    exact h1.symm
  | succ fuel ih =>
    intro cur pAcc aAcc lvl e h
    rw [build_plan_graph_aux] at h
    by_cases hc : subsetB goals
        (addAllEffects cur (applicableActions actions cur)) = true
    · rw [if_pos hc] at h
      exact absurd h (by simp)
    · rw [if_neg hc] at h
      exact ih _ _ _ _ e h

/-- C4: `build_plan_graph` (a total function here, so it terminates) succeeds
with the least index in `1..max_levels` whose layer covers the goals and with
`1 ≤ index ≤ max_levels`; it returns the `PlanNotFound` error exactly when no
such index exists. -/
theorem build_plan_graph_terminates_minimal
    (initS : List Proposition) (acts : List Action) (gls : List Proposition)
    (m : Nat) :
    (∀ pg k, build_plan_graph initS acts gls m = .ok (pg, k) →
      1 ≤ k ∧ k ≤ m ∧ subsetB gls (layerP initS acts k) = true ∧
      ∀ j, 1 ≤ j → j < k → subsetB gls (layerP initS acts j) = false) ∧
    (∀ e, build_plan_graph initS acts gls m = .error e →
      e = planNotFoundMsg ∧
      ∀ j, 1 ≤ j → j ≤ m → subsetB gls (layerP initS acts j) = false) ∧
    ((∀ j, 1 ≤ j → j ≤ m → subsetB gls (layerP initS acts j) = false) →
      build_plan_graph initS acts gls m = .error planNotFoundMsg) := by
  refine ⟨?_, ?_, ?_⟩
  · intro pg k h
    obtain ⟨h1, h2, h3, h4, _, _⟩ := build_plan_graph_ok h
    exact ⟨h1, h2, h3, h4⟩
  · intro e h
    exact ⟨bpgAux_err_msg acts gls m _ _ _ _ e h, build_plan_graph_err h⟩
  · intro hnone
    cases hres : build_plan_graph initS acts gls m with
    | ok v =>
      obtain ⟨pg, k⟩ := v
      obtain ⟨h1, h2, h3, _⟩ := build_plan_graph_ok hres
      rw [hnone k h1 h2] at h3
      exact absurd h3 (by simp)
    | error e =>
      have he := bpgAux_err_msg acts gls m _ _ _ _ e hres
      rw [he]

/-- Witness for C4: the one-action domain succeeds at the least index 1; a
domain whose goal is never produced errors out. -/
theorem build_plan_graph_terminates_minimal_witness :
    (1 ≤ 1 ∧ 1 ≤ 3 ∧
      subsetB ["q"] (layerP ["p"] [mkQAction] 1) = true ∧
      ∀ j, 1 ≤ j → j < 1 →
        subsetB ["q"] (layerP ["p"] [mkQAction] j) = false) ∧
    build_plan_graph ["u"] [] ["zzz"] 2 = .error planNotFoundMsg :=
  ⟨(build_plan_graph_terminates_minimal ["p"] [mkQAction] ["q"] 3).1
      mkQGraph 1 rfl,
   (build_plan_graph_terminates_minimal ["u"] [] ["zzz"] 2).2.2 (by
      intro j h1 h2
      interval_cases j <;> decide)⟩

/-- C5: in a successful plan graph, each action layer is exactly the applicable
filter of the input actions over its proposition layer, the next proposition
layer is the union of the previous one with the chosen actions' add effects,
and proposition layers never shrink. -/
theorem plan_graph_invariants
    (initS : List Proposition) (acts : List Action) (gls : List Proposition)
    (m : Nat) (pg : PlanGraph) (K : Nat)
    (hok : build_plan_graph initS acts gls m = .ok (pg, K)) :
    ∀ i, i < K →
      (pg.action_layers.getD i [] =
        acts.filter (fun a => subsetB a.preconditions (pg.proposition_layers.getD i []))) ∧
      (∀ p, p ∈ pg.proposition_layers.getD (i + 1) [] ↔
        p ∈ pg.proposition_layers.getD i [] ∨
          ∃ a ∈ pg.action_layers.getD i [], p ∈ a.add_effects) ∧
      (∀ p ∈ pg.proposition_layers.getD i [],
        p ∈ pg.proposition_layers.getD (i + 1) []) := by
  obtain ⟨_, _, _, _, hp, ha⟩ := build_plan_graph_ok hok
  intro i hi
  rw [hp, ha]
  rw [getD_range_map _ _ (by omega : i < K + 1),
    getD_range_map _ _ (by omega : i + 1 < K + 1),
    getD_range_map _ _ (by omega : i < K)]
  refine ⟨rfl, ?_, ?_⟩
  · intro p
    exact mem_layerP_succ
  · intro p hp0
    exact layerP_mono hp0

/-- Witness for C5 at a concrete successful graph. -/
theorem plan_graph_invariants_witness :
    (mkQGraph.action_layers.getD 0 [] =
      [mkQAction].filter (fun a => subsetB a.preconditions
        (mkQGraph.proposition_layers.getD 0 []))) ∧
    (∀ p, p ∈ mkQGraph.proposition_layers.getD 1 [] ↔
      p ∈ mkQGraph.proposition_layers.getD 0 [] ∨
        ∃ a ∈ mkQGraph.action_layers.getD 0 [], p ∈ a.add_effects) ∧
    (∀ p ∈ mkQGraph.proposition_layers.getD 0 [],
      p ∈ mkQGraph.proposition_layers.getD 1 []) :=
  plan_graph_invariants ["p"] [mkQAction] ["q"] 8 mkQGraph 1 rfl 0 (by decide)

/-- C10: `build_plan_graph` never tests the initial layer against the goals:
every successful call returns an index of at least 1, and with `max_levels = 0`
it always raises `PlanNotFound`, whatever the inputs. -/
theorem build_plan_graph_skips_initial_layer :
    (∀ (initS : List Proposition) (acts : List Action) (gls : List Proposition)
        (m : Nat) (pg : PlanGraph) (k : Nat),
        build_plan_graph initS acts gls m = .ok (pg, k) → 1 ≤ k) ∧
    (∀ (initS : List Proposition) (acts : List Action) (gls : List Proposition),
        build_plan_graph initS acts gls 0 = .error planNotFoundMsg) := by
  constructor
  · intro initS acts gls m pg k h
    exact (build_plan_graph_ok h).1
  · intro initS acts gls
    rfl

/-- Witness for C10: with the goal already contained in the initial state the
planner still returns index 1 (not 0), and with `max_levels = 0` it errors on
that very same input. -/
theorem build_plan_graph_skips_initial_layer_witness :
    1 ≤ 1 ∧ build_plan_graph ["p"] [] ["p"] 0 = .error planNotFoundMsg :=
  ⟨build_plan_graph_skips_initial_layer.1 ["p"] [] ["p"] 8 ⟨[["p"], ["p"]], [[]]⟩ 1
      rfl,
   build_plan_graph_skips_initial_layer.2 ["p"] [] ["p"]⟩

/-- The concrete value `compute_strict_plan_for_acc3` returns (established by
`compute_strict_plan_for_acc3_eq` below). -/
def acc3LinearPlan : List Action :=
  [ { name := "RequestTrafficDiversion(stadium_corridor)"
      preconditions := ["ControlRoomOperational", "StadiumTrafficLikely"]
      add_effects := ["TrafficDiverted(stadium_corridor)"]
      del_effects := [] }
  , { name := "TriggerDroneRecon(ACC3)"
      preconditions := ["ControlRoomOperational", "AccidentReported(ACC3)"]
      add_effects := ["DroneReconDone(ACC3)", "AccidentLocationConfirmed(ACC3)"]
      del_effects := [] }
  , { name := "PreDeployAmbulanceNearHotspot(A1, nayapalli_chowk)"
      preconditions := ["AmbulanceFree(A1)", "AmbulanceAt(A1, hospital_h1)"]
      add_effects := ["AmbulanceAt(A1, nayapalli_chowk)", "AmbulancePredeployed(A1)"]
      del_effects := ["AmbulanceAt(A1, hospital_h1)"] }
  , { name := "NotifyHospital(H1)"
      preconditions := ["ControlRoomOperational", "AccidentHighRisk(ACC3)", "Hospital(H1)"]
      add_effects := ["HospitalNotified(H1)"]
      del_effects := [] }
  , { name := "StartTransportToAccident(A1, ACC3)"
      preconditions := ["AmbulanceFree(A1)", "AmbulanceAt(A1, nayapalli_chowk)",
        "AccidentLocationConfirmed(ACC3)", "TrafficDiverted(stadium_corridor)"]
      add_effects := ["AmbulanceEnRoute(A1, ACC3)", "AmbulanceBusy(A1)"]
      del_effects := ["AmbulanceFree(A1)"] }
  , { name := "DeliverPatientToH1(A1, ACC3, H1)"
      preconditions := ["AmbulanceEnRoute(A1, ACC3)", "HospitalNotified(H1)"]
      add_effects := ["PatientAt(ACC3, H1)", "AccidentServed(ACC3)",
        "AmbulanceFree(A1)", "AmbulanceAt(A1, hospital_h1)"]
      del_effects := ["AccidentNotServed(ACC3)", "AmbulanceEnRoute(A1, ACC3)",
        "AmbulanceBusy(A1)"] } ]

theorem compute_strict_plan_for_acc3_eq :
    compute_strict_plan_for_acc3 = .ok acc3LinearPlan := by rfl

/-- C3: the strict ACC3 plan ends with `DeliverPatientToH1` (whose add effects
assert `AccidentServed(ACC3)` and `PatientAt(ACC3, H1)`), contains the
reconnaissance and notification actions strictly before the delivery, and
never contains the reroute alternative. -/
theorem compute_strict_plan_for_acc3_shape :
    ∃ plan, compute_strict_plan_for_acc3 = .ok plan ∧
      (plan.map Action.name).getLast? = some "DeliverPatientToH1(A1, ACC3, H1)" ∧
      (∃ d ∈ plan, d.name = "DeliverPatientToH1(A1, ACC3, H1)" ∧
        "AccidentServed(ACC3)" ∈ d.add_effects ∧ "PatientAt(ACC3, H1)" ∈ d.add_effects) ∧
      "TriggerDroneRecon(ACC3)" ∈ plan.map Action.name ∧
      "NotifyHospital(H1)" ∈ plan.map Action.name ∧
      (plan.map Action.name).indexOf "TriggerDroneRecon(ACC3)" <
        (plan.map Action.name).indexOf "DeliverPatientToH1(A1, ACC3, H1)" ∧
      (plan.map Action.name).indexOf "NotifyHospital(H1)" <
        (plan.map Action.name).indexOf "DeliverPatientToH1(A1, ACC3, H1)" ∧
      "RerouteMidJourneyToH2(A1, ACC3, H2)" ∉ plan.map Action.name := by
  refine ⟨acc3LinearPlan, compute_strict_plan_for_acc3_eq, ?_⟩
  decide

/-! ## Claim C8: object lookup and domain-builder short-circuit -/

theorem find?_eq_some_split {α : Type} (p : α → Bool) :
    ∀ (l : List α) (o : α), l.find? p = some o →
      ∃ u v, l = u ++ o :: v ∧ ∀ x ∈ u, p x = false := by
  intro l
  induction l with
  | nil => intro o h; exact absurd h (by simp)
  | cons a l ih =>
    intro o h
    rw [List.find?_cons] at h
    cases hpa : p a with
    | true =>
      rw [hpa] at h
      simp only at h
      injection h with h1
      exact ⟨[], l, by rw [h1]; rfl, by simp⟩
    | false =>
      rw [hpa] at h
      simp only at h
      obtain ⟨u, v, he, hu⟩ := ih o h
      refine ⟨a :: u, v, by rw [he]; rfl, ?_⟩
      intro x hx
      rcases List.mem_cons.mp hx with rfl | hx
      · exact hpa
      · exact hu x hx

/-- C8: `_find_by_id` returns the first object whose id matches and errors with
`NotFound` exactly when no object matches, and `build_domain_for_acc3`'s core
performs its four lookups before any construction, so a failing lookup aborts
the whole call with the error (no partial domain is produced). -/
theorem find_by_id_spec_and_short_circuit :
    (∀ (α : Type) (idOf : α → String) (objects : List α) (obj_id : String) (o : α),
      find_by_id idOf objects obj_id = .ok o →
        idOf o = obj_id ∧
        ∃ u v, objects = u ++ o :: v ∧ ∀ x ∈ u, idOf x ≠ obj_id) ∧
    (∀ (α : Type) (idOf : α → String) (objects : List α) (obj_id : String),
      (∀ x ∈ objects, idOf x ≠ obj_id) ↔
        find_by_id idOf objects obj_id = .error (notFoundMsg obj_id)) ∧
    (∀ (hospitals : List Hospital) (ambulances : List Ambulance)
        (accidents : List Accident),
      ((∃ e, find_by_id Hospital.id hospitals "H1" = .error e) ∨
       (∃ e, find_by_id Hospital.id hospitals "H2" = .error e) ∨
       (∃ e, find_by_id Ambulance.id ambulances "A1" = .error e) ∨
       (∃ e, find_by_id Accident.id accidents "ACC3" = .error e)) →
      ∃ e, build_domain_core hospitals ambulances accidents = .error e) := by
  refine ⟨?_, ?_, ?_⟩
  · intro α idOf objects obj_id o h
    rw [find_by_id] at h
    cases hf : objects.find? (fun x => idOf x == obj_id) with
    | none => rw [hf] at h; exact absurd h (by simp)
    | some o2 =>
      rw [hf] at h
      injection h with h1
      rw [h1] at hf
      have heq : idOf o = obj_id := by
        have hb := List.find?_some hf
        exact eq_of_beq hb
      obtain ⟨u, v, he, hu⟩ := find?_eq_some_split _ objects o hf
      refine ⟨heq, u, v, he, ?_⟩
      intro x hx hcontra
      have := hu x hx
      rw [hcontra] at this
      simp at this
  · intro α idOf objects obj_id
    constructor
    · intro hnone
      rw [find_by_id]
      have : objects.find? (fun x => idOf x == obj_id) = none := by
        rw [List.find?_eq_none]
        intro x hx
        simpa using hnone x hx
      rw [this]
    · intro h x hx hcontra
      rw [find_by_id] at h
      cases hf : objects.find? (fun x => idOf x == obj_id) with
      | none =>
        rw [List.find?_eq_none] at hf
        have := hf x hx
        rw [hcontra] at this
        simp at this
      | some o2 => rw [hf] at h; exact absurd h (by simp)
  · intro hs as accs hfail
    cases h1 : find_by_id Hospital.id hs "H1" with
    | error e => exact ⟨e, by simp [build_domain_core, h1, Except.bind, Except.map, Bind.bind, Functor.map]⟩
    | ok o1 =>
      cases h2 : find_by_id Hospital.id hs "H2" with
      | error e => exact ⟨e, by simp [build_domain_core, h1, h2, Except.bind, Except.map, Bind.bind, Functor.map]⟩
      | ok o2 =>
        cases h3 : find_by_id Ambulance.id as "A1" with
        | error e => exact ⟨e, by simp [build_domain_core, h1, h2, h3, Except.bind, Except.map, Bind.bind, Functor.map]⟩
        | ok o3 =>
          cases h4 : find_by_id Accident.id accs "ACC3" with
          | error e => exact ⟨e, by simp [build_domain_core, h1, h2, h3, h4, Except.bind, Except.map, Bind.bind, Functor.map]⟩
          | ok o4 =>
            rcases hfail with ⟨e, he⟩ | ⟨e, he⟩ | ⟨e, he⟩ | ⟨e, he⟩ <;> simp_all

/-- Witness for C8: a successful first-match lookup, and the domain core
failing outright when the accident collection is empty. -/
theorem find_by_id_spec_and_short_circuit_witness :
    (Accident.id ⟨"ACC3", "airport_approach", "d"⟩ = "ACC3" ∧
      ∃ u v, ([⟨"ACC3", "airport_approach", "d"⟩] : List Accident) =
        u ++ (⟨"ACC3", "airport_approach", "d"⟩ : Accident) :: v ∧
        ∀ x ∈ u, Accident.id x ≠ "ACC3") ∧
    (∃ e, build_domain_core create_base_scenario.hospitals
        create_base_scenario.ambulances [] = .error e) :=
  ⟨find_by_id_spec_and_short_circuit.1 Accident Accident.id
      [⟨"ACC3", "airport_approach", "d"⟩] "ACC3" ⟨"ACC3", "airport_approach", "d"⟩ rfl,
   find_by_id_spec_and_short_circuit.2.2 create_base_scenario.hospitals
      create_base_scenario.ambulances []
      (Or.inr (Or.inr (Or.inr ⟨notFoundMsg "ACC3", rfl⟩)))⟩

/-! ## The concrete POP plan for ACC3 and the POP claims -/

/-- The concrete value `build_pop_plan_for_acc3` returns (established by
`build_pop_plan_for_acc3_eq` below). -/
def acc3PopPlan : POPPlan :=
  { actions :=
      [ ("Start",
          { id := "Start", name := "Start", preconditions := []
            effects := ["AmbulanceFree(A1)", "AmbulanceAt(A1, hospital_h1)",
              "AccidentReported(ACC3)", "AccidentHighRisk(ACC3)",
              "AccidentNotServed(ACC3)", "Hospital(H1)", "Hospital(H2)",
              "TraumaCenter(H1)", "CTAvailable(H1)", "CTOffline(H2)",
              "RainyConditions", "StadiumTrafficLikely", "ControlRoomOperational"] })
      , ("Finish",
          { id := "Finish", name := "Finish"
            preconditions := ["AccidentServed(ACC3)", "PatientAt(ACC3, H1)"]
            effects := [] })
      , ("DroneRecon",
          { id := "DroneRecon", name := "TriggerDroneRecon(ACC3)"
            preconditions := ["ControlRoomOperational", "AccidentReported(ACC3)"]
            effects := ["DroneReconDone(ACC3)", "AccidentLocationConfirmed(ACC3)"] })
      , ("PredeployA1",
          { id := "PredeployA1", name := "PreDeployAmbulanceNearHotspot(A1, nayapalli_chowk)"
            preconditions := ["AmbulanceFree(A1)", "AmbulanceAt(A1, hospital_h1)"]
            effects := ["AmbulanceAt(A1, nayapalli_chowk)", "AmbulancePredeployed(A1)"] })
      , ("NotifyH1",
          { id := "NotifyH1", name := "NotifyHospital(H1)"
            preconditions := ["ControlRoomOperational", "AccidentHighRisk(ACC3)", "Hospital(H1)"]
            effects := ["HospitalNotified(H1)"] })
      , ("RequestDiversion",
          { id := "RequestDiversion", name := "RequestTrafficDiversion(stadium_corridor)"
            preconditions := ["ControlRoomOperational", "StadiumTrafficLikely"]
            effects := ["TrafficDiverted(stadium_corridor)"] })
      , ("StartTransport",
          { id := "StartTransport", name := "StartTransportToAccident(A1, ACC3)"
            preconditions := ["AmbulanceFree(A1)", "AmbulanceAt(A1, nayapalli_chowk)",
              "AccidentLocationConfirmed(ACC3)", "TrafficDiverted(stadium_corridor)"]
            effects := ["AmbulanceEnRoute(A1, ACC3)", "AmbulanceBusy(A1)"] })
      , ("DeliverH1",
          { id := "DeliverH1", name := "DeliverPatientToH1(A1, ACC3, H1)"
            preconditions := ["AmbulanceEnRoute(A1, ACC3)", "HospitalNotified(H1)"]
            effects := ["PatientAt(ACC3, H1)", "AccidentServed(ACC3)",
              "AmbulanceFree(A1)", "AmbulanceAt(A1, hospital_h1)"] })
      , ("RerouteH2",
          { id := "RerouteH2", name := "RerouteMidJourneyToH2(A1, ACC3, H2)"
            preconditions := ["AmbulanceEnRoute(A1, ACC3)", "CTAvailable(H2)"]
            effects := ["PatientAt(ACC3, H2)", "AccidentServed(ACC3)", "AmbulanceFree(A1)"] }) ]
    orderings :=
      [ ("Start", "Finish"), ("Start", "DroneRecon"), ("Start", "PredeployA1")
      , ("Start", "NotifyH1"), ("Start", "RequestDiversion"), ("Start", "StartTransport")
      , ("Start", "DeliverH1"), ("Start", "RerouteH2")
      , ("DroneRecon", "StartTransport"), ("PredeployA1", "StartTransport")
      , ("RequestDiversion", "StartTransport"), ("NotifyH1", "DeliverH1")
      , ("StartTransport", "DeliverH1"), ("StartTransport", "RerouteH2")
      , ("DeliverH1", "Finish"), ("RerouteH2", "Finish") ]
    causal_links :=
      [ ("Start", "ControlRoomOperational", "DroneRecon")
      , ("Start", "AccidentReported(ACC3)", "DroneRecon")
      , ("Start", "AmbulanceFree(A1)", "PredeployA1")
      , ("Start", "AmbulanceAt(A1, hospital_h1)", "PredeployA1")
      , ("Start", "ControlRoomOperational", "NotifyH1")
      , ("Start", "AccidentHighRisk(ACC3)", "NotifyH1")
      , ("Start", "Hospital(H1)", "NotifyH1")
      , ("Start", "ControlRoomOperational", "RequestDiversion")
      , ("Start", "StadiumTrafficLikely", "RequestDiversion")
      , ("DroneRecon", "AccidentLocationConfirmed(ACC3)", "StartTransport")
      , ("PredeployA1", "AmbulanceAt(A1, nayapalli_chowk)", "StartTransport")
      , ("RequestDiversion", "TrafficDiverted(stadium_corridor)", "StartTransport")
      , ("NotifyH1", "HospitalNotified(H1)", "DeliverH1")
      , ("StartTransport", "AmbulanceEnRoute(A1, ACC3)", "DeliverH1")
      , ("StartTransport", "AmbulanceEnRoute(A1, ACC3)", "RerouteH2") ]
    branches :=
      [ { condition := "CTAvailable(H2)", actions := ["RerouteH2"]
          description := "If CT scanner at H2 becomes available while A1 is en route, reroute mid-way to H2 for faster imaging." }
      , { condition := "CTOffline(H2)", actions := ["DeliverH1"]
          description := "If H2 CT remains offline, continue with baseline plan and deliver the patient to H1 (trauma centre)." } ] }

theorem except_eq_ok_of_toOption {ε α : Type} {e : Except ε α} {a : α}
    (h : e.toOption = some a) : e = .ok a := by
  cases e with
  | ok b =>
    simp only [Except.toOption] at h
    injection h with h1
    rw [h1]
  | error msg => simp [Except.toOption] at h

theorem build_pop_plan_for_acc3_eq :
    build_pop_plan_for_acc3 = .ok acc3PopPlan :=
  except_eq_ok_of_toOption (by decide)

/-- Lookup in the POP action dictionary. -/
def popLookup (plan : POPPlan) (aid : String) : Option POPAction :=
  (plan.actions.find? (fun pr => pr.1 == aid)).map Prod.snd

/-- `b` is ordered strictly before `a`: distinct and reachable. -/
def strictlyEarlier (plan : POPPlan) (b a : String) : Bool :=
  b != a && reaches plan.orderings b a

/-- Claim C6's condition for one causal link. -/
def causalLinkValid (plan : POPPlan) (l : String × Proposition × String) : Bool :=
  match popLookup plan l.1, popLookup plan l.2.2 with
  | some producer, some consumer =>
    producer.effects.contains l.2.1 && consumer.preconditions.contains l.2.1 &&
      reaches plan.orderings l.1 l.2.2
  | _, _ => false

/-- Claim C2's condition for one action `pr` and one of its preconditions `p`:
if some strictly-earlier action supplies `p`, a matching causal link with a
strictly-earlier supplying producer is recorded. -/
def causalSupportOk (plan : POPPlan) (pr : String × POPAction) (p : Proposition) : Bool :=
  !(plan.actions.any (fun bpr =>
      strictlyEarlier plan bpr.1 pr.1 && bpr.2.effects.contains p)) ||
  plan.causal_links.any (fun l =>
    l.2.2 == pr.1 && l.2.1 == p && strictlyEarlier plan l.1 pr.1 &&
    (match popLookup plan l.1 with
     | some producer => producer.effects.contains p
     | none => false))

/-- Claim C2 as stated: the support condition for every action and every
precondition. -/
def causalComplete (plan : POPPlan) : Bool :=
  plan.actions.all (fun pr => pr.2.preconditions.all (causalSupportOk plan pr))

/-- Claim C2 amended: the same condition, except for the preconditions of
`Finish` and the `AmbulanceFree(A1)` precondition of `StartTransport`, for
which the builder records no link. -/
def causalCompleteExcept (plan : POPPlan) : Bool :=
  plan.actions.all (fun pr =>
    pr.1 == "Finish" ||
    pr.2.preconditions.all (fun p =>
      (pr.1 == "StartTransport" && p == "AmbulanceFree(A1)") ||
      causalSupportOk plan pr p))

/-- C6: every recorded causal link `(producer, prop, consumer)` of the ACC3 POP
plan has `prop` among the producer's effects and the consumer's preconditions,
and the consumer reachable from the producer through the orderings. -/
theorem pop_causal_links_valid :
    ∃ plan, build_pop_plan_for_acc3 = .ok plan ∧
      plan.causal_links.all (causalLinkValid plan) = true :=
  ⟨acc3PopPlan, build_pop_plan_for_acc3_eq, by decide⟩

/-- C7: the orderings of the ACC3 POP plan are acyclic; `Start` has no incoming
edge and no preconditions; `Finish` has no outgoing edge and its preconditions
are exactly the goal set of the domain. -/
theorem pop_acyclic_start_finish :
    ∃ plan initS acts goals,
      build_domain_for_acc3 = .ok (initS, acts, goals) ∧
      build_pop_plan_for_acc3 = .ok plan ∧
      orderingsAcyclic plan.orderings = true ∧
      plan.orderings.all (fun e => e.2 != "Start" && e.1 != "Finish") = true ∧
      (∃ s, popLookup plan "Start" = some s ∧ s.preconditions = []) ∧
      (∃ f, popLookup plan "Finish" = some f ∧ f.preconditions = goals) := by
  obtain ⟨initS, acts, goals⟩ :
      List Proposition × List Action × List Proposition := build_domain_for_acc3.toOption.getD ([], [], [])
  exact ⟨acc3PopPlan, _, _, _, rfl, build_pop_plan_for_acc3_eq, by decide, by decide,
    ⟨_, rfl, rfl⟩, ⟨_, rfl, rfl⟩⟩

/-- C2 (counterexample to the claim as stated): `DeliverH1` is ordered strictly
before `Finish` and supplies `AccidentServed(ACC3)`, a precondition of
`Finish`, yet no causal link at all is recorded into `Finish`; likewise `Start`
supplies `AmbulanceFree(A1)` to `StartTransport` with no matching link. -/
theorem pop_causal_complete_counterexample :
    ∃ plan, build_pop_plan_for_acc3 = .ok plan ∧
      causalComplete plan = false ∧
      strictlyEarlier plan "DeliverH1" "Finish" = true ∧
      (∃ d, popLookup plan "DeliverH1" = some d ∧ "AccidentServed(ACC3)" ∈ d.effects) ∧
      (∃ f, popLookup plan "Finish" = some f ∧ "AccidentServed(ACC3)" ∈ f.preconditions) ∧
      plan.causal_links.all (fun l => !(l.2.2 == "Finish")) = true ∧
      strictlyEarlier plan "Start" "StartTransport" = true ∧
      (∃ s, popLookup plan "Start" = some s ∧ "AmbulanceFree(A1)" ∈ s.effects) ∧
      (∃ t, popLookup plan "StartTransport" = some t ∧
        "AmbulanceFree(A1)" ∈ t.preconditions) ∧
      plan.causal_links.all (fun l =>
        !(l.2.2 == "StartTransport" && l.2.1 == "AmbulanceFree(A1)")) = true :=
  ⟨acc3PopPlan, build_pop_plan_for_acc3_eq, by decide, by decide,
    ⟨_, rfl, by decide⟩, ⟨_, rfl, by decide⟩, by decide, by decide,
    ⟨_, rfl, by decide⟩, ⟨_, rfl, by decide⟩, by decide⟩

/-- C2 (amended): causal-link completeness holds for every action except the
synthetic `Finish` node (no links into `Finish` are recorded) and except the
`AmbulanceFree(A1)` precondition of `StartTransport` (supplied by `Start` but
not recorded). -/
theorem pop_causal_complete_except :
    ∃ plan, build_pop_plan_for_acc3 = .ok plan ∧
      causalCompleteExcept plan = true :=
  ⟨acc3PopPlan, build_pop_plan_for_acc3_eq, by decide⟩

/-! ## Claim C9: iteration-order (in)dependence of the strict planner -/

/-- The initial state `build_domain_for_acc3` returns. -/
def acc3Init : List Proposition :=
  [ "AmbulanceFree(A1)", "AmbulanceAt(A1, hospital_h1)", "AccidentReported(ACC3)"
  , "AccidentHighRisk(ACC3)", "AccidentNotServed(ACC3)", "Hospital(H1)", "Hospital(H2)"
  , "TraumaCenter(H1)", "CTAvailable(H1)", "CTOffline(H2)", "RainyConditions"
  , "StadiumTrafficLikely", "ControlRoomOperational" ]

/-- The ground actions `build_domain_for_acc3` returns, in source order. -/
def acc3Actions : List Action :=
  [ { name := "TriggerDroneRecon(ACC3)"
      preconditions := ["ControlRoomOperational", "AccidentReported(ACC3)"]
      add_effects := ["DroneReconDone(ACC3)", "AccidentLocationConfirmed(ACC3)"]
      del_effects := [] }
  , { name := "RequestTrafficDiversion(stadium_corridor)"
      preconditions := ["ControlRoomOperational", "StadiumTrafficLikely"]
      add_effects := ["TrafficDiverted(stadium_corridor)"]
      del_effects := [] }
  , { name := "PreDeployAmbulanceNearHotspot(A1, nayapalli_chowk)"
      preconditions := ["AmbulanceFree(A1)", "AmbulanceAt(A1, hospital_h1)"]
      add_effects := ["AmbulanceAt(A1, nayapalli_chowk)", "AmbulancePredeployed(A1)"]
      del_effects := ["AmbulanceAt(A1, hospital_h1)"] }
  , { name := "NotifyHospital(H1)"
      preconditions := ["ControlRoomOperational", "AccidentHighRisk(ACC3)", "Hospital(H1)"]
      add_effects := ["HospitalNotified(H1)"]
      del_effects := [] }
  , { name := "StartTransportToAccident(A1, ACC3)"
      preconditions := ["AmbulanceFree(A1)", "AmbulanceAt(A1, nayapalli_chowk)",
        "AccidentLocationConfirmed(ACC3)", "TrafficDiverted(stadium_corridor)"]
      add_effects := ["AmbulanceEnRoute(A1, ACC3)", "AmbulanceBusy(A1)"]
      del_effects := ["AmbulanceFree(A1)"] }
  , { name := "DeliverPatientToH1(A1, ACC3, H1)"
      preconditions := ["AmbulanceEnRoute(A1, ACC3)", "HospitalNotified(H1)"]
      add_effects := ["PatientAt(ACC3, H1)", "AccidentServed(ACC3)",
        "AmbulanceFree(A1)", "AmbulanceAt(A1, hospital_h1)"]
      del_effects := ["AccidentNotServed(ACC3)", "AmbulanceEnRoute(A1, ACC3)",
        "AmbulanceBusy(A1)"] }
  , { name := "RerouteMidJourneyToH2(A1, ACC3, H2)"
      preconditions := ["AmbulanceEnRoute(A1, ACC3)", "CTAvailable(H2)"]
      add_effects := ["PatientAt(ACC3, H2)", "AccidentServed(ACC3)", "AmbulanceFree(A1)"]
      del_effects := ["AccidentNotServed(ACC3)", "AmbulanceEnRoute(A1, ACC3)",
        "AmbulanceBusy(A1)"] } ]

/-- The goal set `build_domain_for_acc3` returns. -/
def acc3Goals : List Proposition :=
  ["AccidentServed(ACC3)", "PatientAt(ACC3, H1)"]

theorem build_domain_for_acc3_eq :
    build_domain_for_acc3 = .ok (acc3Init, acc3Actions, acc3Goals) :=
  except_eq_ok_of_toOption (by decide)

/-- The plan graph `build_plan_graph acc3Init acc3Actions acc3Goals 8` returns
(layers grow monotonically; the goal layer is reached at index 3). -/
def acc3PlanGraph : PlanGraph :=
  { proposition_layers :=
      [ acc3Init
      , acc3Init ++
          [ "DroneReconDone(ACC3)", "AccidentLocationConfirmed(ACC3)"
          , "TrafficDiverted(stadium_corridor)", "AmbulanceAt(A1, nayapalli_chowk)"
          , "AmbulancePredeployed(A1)", "HospitalNotified(H1)" ]
      , acc3Init ++
          [ "DroneReconDone(ACC3)", "AccidentLocationConfirmed(ACC3)"
          , "TrafficDiverted(stadium_corridor)", "AmbulanceAt(A1, nayapalli_chowk)"
          , "AmbulancePredeployed(A1)", "HospitalNotified(H1)"
          , "AmbulanceEnRoute(A1, ACC3)", "AmbulanceBusy(A1)" ]
      , acc3Init ++
          [ "DroneReconDone(ACC3)", "AccidentLocationConfirmed(ACC3)"
          , "TrafficDiverted(stadium_corridor)", "AmbulanceAt(A1, nayapalli_chowk)"
          , "AmbulancePredeployed(A1)", "HospitalNotified(H1)"
          , "AmbulanceEnRoute(A1, ACC3)", "AmbulanceBusy(A1)"
          , "PatientAt(ACC3, H1)", "AccidentServed(ACC3)" ] ]
    action_layers :=
      [ acc3Actions.take 4, acc3Actions.take 5, acc3Actions.take 6 ] }

theorem acc3_plan_graph_eq :
    build_plan_graph acc3Init acc3Actions acc3Goals 8 = .ok (acc3PlanGraph, 3) :=
  except_eq_ok_of_toOption (by decide)

/-- C9 (counterexample to the claim as stated): on the canonical domain,
iterating the working goal set in reverse (an equally valid enumeration of the
same set, as Python's hash-randomised set ordering may produce) yields a
different action list than insertion-order iteration, so the returned list is
not independent of the set-iteration order. -/
theorem extract_order_dependence_counterexample :
    build_domain_for_acc3 = .ok (acc3Init, acc3Actions, acc3Goals) ∧
    build_plan_graph acc3Init acc3Actions acc3Goals 8 = .ok (acc3PlanGraph, 3) ∧
    extract_linear_plan_iter List.reverse acc3PlanGraph 3 acc3Goals ≠
      extract_linear_plan_iter (fun l => l) acc3PlanGraph 3 acc3Goals :=
  ⟨build_domain_for_acc3_eq, acc3_plan_graph_eq, by decide⟩

/-- Mutual containment of two string lists (equality of member sets). -/
def sameSetB (xs ys : List String) : Bool :=
  xs.all (fun x => ys.contains x) && ys.all (fun y => xs.contains y)

theorem sameSetB_iff {xs ys : List String} :
    sameSetB xs ys = true ↔ ∀ x, x ∈ xs ↔ x ∈ ys := by
  rw [sameSetB, Bool.and_eq_true, List.all_eq_true, List.all_eq_true]
  constructor
  · intro ⟨hxy, hyx⟩ x
    constructor
    · intro hx
      have := hxy x hx
      rwa [contains_iff_mem] at this
    · intro hy
      have := hyx x hy
      rwa [contains_iff_mem] at this
  · intro h
    constructor
    · intro x hx
      rw [contains_iff_mem]
      exact (h x).mp hx
    · intro y hy
      rw [contains_iff_mem]
      exact (h y).mpr hy

theorem extractLevel_fst_sameMem {props : List Proposition} {ap : List Action}
    {g1 g2 : List Proposition} (h : ∀ x, x ∈ g1 ↔ x ∈ g2) :
    ∀ a, a ∈ (extractLevel props ap g1).1 ↔ a ∈ (extractLevel props ap g2).1 := by
  intro a
  rw [mem_extractLevel_fst, mem_extractLevel_fst]
  constructor
  · rintro ⟨g, hg, hs⟩
    exact ⟨g, (h g).mp hg, hs⟩
  · rintro ⟨g, hg, hs⟩
    exact ⟨g, (h g).mpr hg, hs⟩

theorem extractLevel_snd_sameMem {props : List Proposition} {ap : List Action}
    {g1 g2 : List Proposition} (h : ∀ x, x ∈ g1 ↔ x ∈ g2) :
    ∀ p, p ∈ (extractLevel props ap g1).2 ↔ p ∈ (extractLevel props ap g2).2 := by
  intro p
  rw [mem_extractLevel_snd, mem_extractLevel_snd]
  constructor
  · rintro ⟨a, ha, hp⟩
    exact ⟨a, (extractLevel_fst_sameMem h a).mp ha, hp⟩
  · rintro ⟨a, ha, hp⟩
    exact ⟨a, (extractLevel_fst_sameMem h a).mpr ha, hp⟩

theorem extractLoopIter_sameMem (pL : List (List Proposition))
    (aL : List (List Action)) (iter1 iter2 : List Proposition → List Proposition)
    (hi1 : ∀ (l : List Proposition) (x : Proposition), x ∈ iter1 l ↔ x ∈ l)
    (hi2 : ∀ (l : List Proposition) (x : Proposition), x ∈ iter2 l ↔ x ∈ l) :
    ∀ (n : Nat) (c1 c2 : List Action) (g1 g2 : List Proposition),
      (∀ a, a ∈ c1 ↔ a ∈ c2) → (∀ x, x ∈ g1 ↔ x ∈ g2) →
      ∀ a, a ∈ (extractLoopIter pL aL iter1 n (c1, g1)).1 ↔
        a ∈ (extractLoopIter pL aL iter2 n (c2, g2)).1 := by
  intro n
  induction n with
  | zero => intro c1 c2 g1 g2 hc _ a; exact hc a
  | succ n ih =>
    intro c1 c2 g1 g2 hc hg a
    rw [extractLoopIter, extractLoopIter]
    have hgmem : ∀ x, x ∈ iter1 g1 ↔ x ∈ iter2 g2 := by
      intro x
      rw [hi1 g1 x, hi2 g2 x]
      exact hg x
    refine ih _ _ _ _ ?_ ?_ a
    · intro b
      rw [List.mem_append, List.mem_append]
      constructor
      · rintro (hb | hb)
        · exact Or.inl ((hc b).mp hb)
        · exact Or.inr ((extractLevel_fst_sameMem hgmem b).mp hb)
      · rintro (hb | hb)
        · exact Or.inl ((hc b).mpr hb)
        · exact Or.inr ((extractLevel_fst_sameMem hgmem b).mpr hb)
    · intro x
      rw [mem_unionList, mem_unionList]
      constructor
      · rintro (hx | hx)
        · exact Or.inl ((hg x).mp hx)
        · exact Or.inr ((extractLevel_snd_sameMem hgmem x).mp hx)
      · rintro (hx | hx)
        · exact Or.inl ((hg x).mpr hx)
        · exact Or.inr ((extractLevel_snd_sameMem hgmem x).mpr hx)

theorem names_dedupByName {L : List Action} {nm : String} :
    (∃ b ∈ dedupByName L [], b.name = nm) ↔ ∃ a ∈ L, a.name = nm := by
  constructor
  · rintro ⟨b, hb, hbn⟩
    exact ⟨b, mem_of_mem_dedupByName L [] b hb, hbn⟩
  · rintro ⟨a, ha, han⟩
    obtain ⟨b, hb, hbn⟩ := dedup_keeps_name L [] a ha (List.not_mem_nil _)
    exact ⟨b, hb, hbn.trans han⟩

/-- C9 (amended): the SET of action names `extract_linear_plan` returns does
not depend on the order in which the working goal sets are enumerated — only
the relative order of independent actions can differ, as the counterexample
shows.  (With a fixed enumeration order the function is a pure function of its
inputs, hence deterministic.) -/
theorem extract_linear_plan_iter_name_set
    (pg : PlanGraph) (K : Nat) (gls : List Proposition)
    (iter1 iter2 : List Proposition → List Proposition)
    (h1 : ∀ (l : List Proposition) (x : Proposition), x ∈ iter1 l ↔ x ∈ l)
    (h2 : ∀ (l : List Proposition) (x : Proposition), x ∈ iter2 l ↔ x ∈ l) :
    sameSetB ((extract_linear_plan_iter iter1 pg K gls).map Action.name)
      ((extract_linear_plan_iter iter2 pg K gls).map Action.name) = true := by
  rw [sameSetB_iff]
  intro nm
  rw [List.mem_map, List.mem_map]
  show (∃ a, a ∈ dedupByName _ [] ∧ a.name = nm) ↔
    (∃ a, a ∈ dedupByName _ [] ∧ a.name = nm)
  rw [show (∃ a, a ∈ dedupByName (extractLoopIter pg.proposition_layers
      pg.action_layers iter1 K ([], gls)).1.reverse [] ∧ a.name = nm) ↔
      ∃ a ∈ (extractLoopIter pg.proposition_layers pg.action_layers iter1 K
        ([], gls)).1.reverse, a.name = nm from names_dedupByName]
  rw [show (∃ a, a ∈ dedupByName (extractLoopIter pg.proposition_layers
      pg.action_layers iter2 K ([], gls)).1.reverse [] ∧ a.name = nm) ↔
      ∃ a ∈ (extractLoopIter pg.proposition_layers pg.action_layers iter2 K
        ([], gls)).1.reverse, a.name = nm from names_dedupByName]
  have hsame := extractLoopIter_sameMem pg.proposition_layers pg.action_layers
    iter1 iter2 h1 h2 K [] [] gls gls (fun a => Iff.rfl) (fun x => Iff.rfl)
  constructor
  · rintro ⟨a, ha, han⟩
    exact ⟨a, List.mem_reverse.mpr ((hsame a).mp (List.mem_reverse.mp ha)), han⟩
  · rintro ⟨a, ha, han⟩
    exact ⟨a, List.mem_reverse.mpr ((hsame a).mpr (List.mem_reverse.mp ha)), han⟩

/-- Witness for the amended C9: insertion order versus reversed order on the
canonical ACC3 plan graph give the same action-name set. -/
theorem extract_linear_plan_iter_name_set_witness :
    sameSetB ((extract_linear_plan_iter (fun l => l) acc3PlanGraph 3 acc3Goals).map Action.name)
      ((extract_linear_plan_iter List.reverse acc3PlanGraph 3 acc3Goals).map Action.name) = true :=
  extract_linear_plan_iter_name_set acc3PlanGraph 3 acc3Goals (fun l => l) List.reverse
    (fun _ _ => Iff.rfl) (fun _ _ => List.mem_reverse)

end EmergencyPlanning
